import Mathlib

/-!
Verification of the graph-isomorphism core of this repository.

The development shallowly embeds the `Graph` class of
`src/graph-isomorphism/src/tree.js` and the functions of
`src/graph-isomorphism/src/isomorphism.js` (`checkInvariants`, `permute`,
`isValidMapping`, `detectIsomorphism`, `detectIsomorphismOptimized`).

Modelling conventions:
- Vertex identifiers are natural numbers (the JS code uses strings or
  numbers; the algorithms only compare identifiers for equality).
- A JS `Set` is a list without duplicates in insertion order; a JS `Map`
  is an association list whose keys are unique, in insertion order.
  `Map.get` is `List.lookup`, `Map.set` with a fresh key is an append.
- `Array.prototype.sort` with comparator `(a, b) => b - a` returns the
  multiset sorted in descending order; `sortDesc` computes that list.
- Result objects become a structure with `Option` fields; a field absent
  from the JS object is `none` (JS `null` for `isIsomorphic` is also
  `none`, see `SearchResult.isIsomorphic`).
-/

/-- Embedding of the `Graph` class state of `tree.js`:
`isDirected`, `vertices` (a `Set`, kept in insertion order),
`adjacencyList` (a `Map` from vertex to its neighbor array) and
`edges` (the array of inserted pairs). -/
structure Graph where
  isDirected : Bool
  vertices : List Nat
  adjacencyList : List (Nat × List Nat)
  edges : List (Nat × Nat)
deriving Repr, DecidableEq

/-- Embedding of `new Graph(isDirected)`: empty containers. -/
def Graph.empty (isDirected : Bool := false) : Graph :=
  { isDirected := isDirected, vertices := [], adjacencyList := [], edges := [] }

/-- Embedding of `Graph.addVertex`: no-op when the vertex is present,
otherwise the vertex is inserted and its neighbor list initialized. -/
def Graph.addVertex (g : Graph) (vertex : Nat) : Graph :=
  if vertex ∈ g.vertices then g
  else { g with vertices := g.vertices ++ [vertex],
                adjacencyList := g.adjacencyList ++ [(vertex, [])] }

/-- Embedding of `this.adjacencyList.get(k).push(v)`: the entry whose key is
`k` has `v` appended to its neighbor list (keys are unique in every state
reachable through the class methods, so updating every entry with key `k`
is the same as updating the one entry the JS `Map` holds). -/
def adjAppend (al : List (Nat × List Nat)) (k v : Nat) : List (Nat × List Nat) :=
  al.map fun q => if q.1 = k then (q.1, q.2 ++ [v]) else q

/-- Embedding of `Graph.addEdge`: ensure both endpoints exist, append `v2`
to the neighbor list of `v1`, record the pair in `edges`, and if the graph
is undirected also append `v1` to the neighbor list of `v2`. -/
def Graph.addEdge (g : Graph) (v1 v2 : Nat) : Graph :=
  let g1 := (g.addVertex v1).addVertex v2
  let g2 := { g1 with adjacencyList := adjAppend g1.adjacencyList v1 v2,
                      edges := g1.edges ++ [(v1, v2)] }
  if !g2.isDirected then
    { g2 with adjacencyList := adjAppend g2.adjacencyList v2 v1 }
  else g2

/-- Embedding of `Graph.getNeighbors`: the neighbor list of the vertex, or
the empty list when the vertex is unknown (`get(vertex) || []`). -/
def Graph.getNeighbors (g : Graph) (vertex : Nat) : List Nat :=
  (g.adjacencyList.lookup vertex).getD []

/-- Embedding of `Graph.getDegree`: length of the neighbor list. -/
def Graph.getDegree (g : Graph) (vertex : Nat) : Nat :=
  (g.getNeighbors vertex).length

/-- Embedding of `Graph.areAdjacent`:
`this.adjacencyList.get(v1)?.includes(v2) || false`. -/
def Graph.areAdjacent (g : Graph) (v1 v2 : Nat) : Bool :=
  match g.adjacencyList.lookup v1 with
  | some l => l.contains v2
  | none => false

/-- Insertion of a value into a list sorted in descending order. -/
def insertDesc (a : Nat) : List Nat → List Nat
  | [] => [a]
  | b :: l => if b ≤ a then a :: b :: l else b :: insertDesc a l

/-- Embedding of `degrees.sort((a, b) => b - a)`: the JS numeric sort with
this comparator returns the same multiset arranged in descending order,
which is what insertion sort into descending order computes. -/
def sortDesc (l : List Nat) : List Nat :=
  l.foldr insertDesc []

/-- Embedding of `Graph.getDegreeSequence`: the degrees of all vertices
sorted in descending order. -/
def Graph.getDegreeSequence (g : Graph) : List Nat :=
  sortDesc (g.vertices.map fun v => g.getDegree v)

/-- Embedding of `Graph.getVertexCount`: `this.vertices.size`. -/
def Graph.getVertexCount (g : Graph) : Nat :=
  g.vertices.length

/-- Embedding of `Graph.getEdgeCount`: the JS body is a conditional whose
two branches both return `this.edges.length`. -/
def Graph.getEdgeCount (g : Graph) : Nat :=
  g.edges.length

/-- Embedding of the `checks` object computed by `checkInvariants`. -/
structure InvariantChecks where
  vertexCount : Bool
  edgeCount : Bool
  degreeSequence : Bool
deriving Repr, DecidableEq

/-- Embedding of the per-graph summary stored under `details`. -/
structure GraphSummary where
  vertices : Nat
  edges : Nat
  degrees : List Nat
deriving Repr, DecidableEq

/-- Embedding of the object returned by `checkInvariants`. -/
structure InvariantResult where
  isomorphismPossible : Bool
  checks : InvariantChecks
  detailsG1 : GraphSummary
  detailsG2 : GraphSummary
deriving Repr, DecidableEq

/-- Embedding of `checkInvariants` of `isomorphism.js`: three boolean
checks (equal vertex counts, equal edge counts, equal degree sequences;
`JSON.stringify` equality of two arrays of numbers is list equality), and
`isomorphismPossible` is their conjunction (`Object.values(checks).every`). -/
def checkInvariants (g1 g2 : Graph) : InvariantResult :=
  let checks : InvariantChecks :=
    { vertexCount := g1.getVertexCount == g2.getVertexCount,
      edgeCount := g1.getEdgeCount == g2.getEdgeCount,
      degreeSequence := g1.getDegreeSequence == g2.getDegreeSequence }
  { isomorphismPossible := checks.vertexCount && checks.edgeCount && checks.degreeSequence,
    checks := checks,
    detailsG1 := { vertices := g1.getVertexCount, edges := g1.getEdgeCount,
                   degrees := g1.getDegreeSequence },
    detailsG2 := { vertices := g2.getVertexCount, edges := g2.getEdgeCount,
                   degrees := g2.getDegreeSequence } }

/-- Selection step of the loop inside `permute`: for each index `i` of the
array, the pair of `current = arr[i]` and
`remaining = arr.slice(0, i).concat(arr.slice(i + 1))`, in index order. -/
def pickEach : List Nat → List (Nat × List Nat)
  | [] => []
  | x :: xs => (x, xs) :: (pickEach xs).map fun q => (q.1, x :: q.2)

/-- Recursion of `permute`, driven by a fuel argument so that the
definition is structurally recursive; `permute` supplies fuel equal to the
length of the array, and the fuel is exhausted only on arrays of length at
most one, where the JS base case `if (arr.length <= 1) return [arr]`
applies anyway. -/
def permuteAux : Nat → List Nat → List (List Nat)
  | 0, arr => [arr]
  | fuel + 1, arr =>
    if arr.length ≤ 1 then [arr]
    else (pickEach arr).flatMap fun q =>
      (permuteAux fuel q.2).map fun p => q.1 :: p

/-- Embedding of `permute` of `isomorphism.js`: all permutations of the
array, generated by choosing each element in index order as the head and
recursing on the remaining elements. -/
def permute (arr : List Nat) : List (List Nat) :=
  permuteAux arr.length arr

/-- Application of a candidate mapping (`Map.get`) to a vertex inside
`areAdjacent`: `g.areAdjacent(undefined, y)`, `g.areAdjacent(x, undefined)`
and `g.areAdjacent(undefined, undefined)` are all `false` in the JS code
(an unknown key yields `undefined`, and `undefined` is in no list). -/
def areAdjacentOpt (g : Graph) (a b : Option Nat) : Bool :=
  match a, b with
  | some x, some y => g.areAdjacent x y
  | _, _ => false

/-- Embedding of `isValidMapping` of `isomorphism.js`: for every ordered
pair of vertices of `g1`, adjacency in `g1` equals adjacency in `g2` of the
mapped pair. The JS `Map` holding the candidate mapping is an association
list with unique keys, read through `List.lookup`. -/
def isValidMapping (g1 g2 : Graph) (mapping : List (Nat × Nat)) : Bool :=
  g1.vertices.all fun v1 => g1.vertices.all fun v2 =>
    g1.areAdjacent v1 v2 == areAdjacentOpt g2 (mapping.lookup v1) (mapping.lookup v2)

/-- Embedding of the result objects returned by `detectIsomorphism` and
`detectIsomorphismOptimized`. A JS field that a given return object does
not carry is `none`; the `isIsomorphic: null` of the too-large branch is
also `none`. -/
structure SearchResult where
  isIsomorphic : Option Bool
  reason : Option String
  invariantCheck : InvariantResult
  mapping : Option (List (Nat × Nat))
  permutationsChecked : Option Nat
  optimized : Option Bool
deriving Repr, DecidableEq

/-- Embedding of the candidate loops of both search functions: candidates
are tried in order, a counter is incremented for each candidate before it
is validated, and the first candidate that satisfies `isValidMapping` is
returned together with the counter value (the progress callbacks do not
influence the result and are not modelled). `none` means exhaustion, in
which case the counter has reached the number of candidates. -/
def searchLoop (g1 g2 : Graph) : List (List (Nat × Nat)) → Nat → Option (List (Nat × Nat) × Nat)
  | [], _ => none
  | m :: rest, checked =>
    if isValidMapping g1 g2 m then some (m, checked + 1)
    else searchLoop g1 g2 rest (checked + 1)

/-- Text of the too-large reason of `detectIsomorphism`. -/
def tooLargeReasonBrute (n maxVertices : Nat) : String :=
  "Graph too large (" ++ toString n ++ " vertices > " ++ toString maxVertices ++
    " max). Use specialized algorithms."

/-- Embedding of `detectIsomorphism` of `isomorphism.js` with its
`maxVertices` option (default 10): invariant check, size ceiling, then a
loop over all permutations of the vertices of `g2`, each paired
position-by-position with the vertices of `g1` (`Map.set` of the pairs
`(vertices1[i], perm[i])` is `List.zip`, the two arrays having equal
length whenever this code is reached, because the vertex-count invariant
passed). -/
def detectIsomorphism (g1 g2 : Graph) (maxVertices : Nat := 10) : SearchResult :=
  let invariantCheck := checkInvariants g1 g2
  if !invariantCheck.isomorphismPossible then
    { isIsomorphic := some false, reason := some "Invariants do not match",
      invariantCheck := invariantCheck, mapping := none,
      permutationsChecked := none, optimized := none }
  else
    let n := g1.getVertexCount
    if n > maxVertices then
      { isIsomorphic := none, reason := some (tooLargeReasonBrute n maxVertices),
        invariantCheck := invariantCheck, mapping := none,
        permutationsChecked := none, optimized := none }
    else
      let vertices1 := g1.vertices
      let vertices2 := g2.vertices
      let permutations := permute vertices2
      match searchLoop g1 g2 (permutations.map fun perm => vertices1.zip perm) 0 with
      | some (m, k) =>
        { isIsomorphic := some true, reason := none,
          invariantCheck := invariantCheck, mapping := some m,
          permutationsChecked := some k, optimized := none }
      | none =>
        { isIsomorphic := some false,
          reason := some "No valid mapping found after checking all permutations",
          invariantCheck := invariantCheck, mapping := none,
          permutationsChecked := some permutations.length, optimized := none }

/-- Step of the degree-grouping loops of `detectIsomorphismOptimized`:
`degreeGroups.get(degree).push(v)` when the key exists, otherwise
`degreeGroups.set(degree, [v])` which appends a fresh entry. -/
def insertGroup (groups : List (Nat × List Nat)) (degree v : Nat) : List (Nat × List Nat) :=
  if (groups.lookup degree).isSome then adjAppend groups degree v
  else groups ++ [(degree, [v])]

/-- Embedding of the loop that fills `degreeGroups` for one graph: the
vertices are scanned in insertion order and grouped by degree, the keys
appearing in order of first occurrence. -/
def buildDegreeGroups (g : Graph) : List (Nat × List Nat) :=
  g.vertices.foldl (fun groups v => insertGroup groups (g.getDegree v) v) []

/-- Embedding of the recursive generator `generateMappings`: for each
degree in `degrees`, every permutation of the group of `g2` with that
degree extends the mapping built so far, pairing the group of `g1`
position-by-position with the permutation (`Map.set` on a copy of the
current `Map`; the keys added for distinct degrees are disjoint, so the
appends leave earlier entries intact exactly as `Map.set` does). -/
def generateMappings (dg1 dg2 : List (Nat × List Nat)) :
    List Nat → List (Nat × Nat) → List (List (Nat × Nat))
  | [], currentMapping => [currentMapping]
  | degree :: rest, currentMapping =>
    let group1 := (dg1.lookup degree).getD []
    let group2 := (dg2.lookup degree).getD []
    (permute group2).flatMap fun perm =>
      generateMappings dg1 dg2 rest (currentMapping ++ group1.zip perm)

/-- Text of the too-large reason of `detectIsomorphismOptimized`. -/
def tooLargeReasonOpt (n maxVertices : Nat) : String :=
  "Graph too large (" ++ toString n ++ " vertices > " ++ toString maxVertices ++ " max)"

/-- Embedding of `detectIsomorphismOptimized` of `isomorphism.js` with its
`maxVertices` option (default 12): invariant check, size ceiling, degree
grouping, the guard on the number of degree groups, then a loop over the
mappings produced by `generateMappings` for the key list of the degree
groups of `g1`. -/
def detectIsomorphismOptimized (g1 g2 : Graph) (maxVertices : Nat := 12) : SearchResult :=
  let invariantCheck := checkInvariants g1 g2
  if !invariantCheck.isomorphismPossible then
    { isIsomorphic := some false, reason := some "Invariants do not match",
      invariantCheck := invariantCheck, mapping := none,
      permutationsChecked := none, optimized := none }
  else
    let n := g1.getVertexCount
    if n > maxVertices then
      { isIsomorphic := none, reason := some (tooLargeReasonOpt n maxVertices),
        invariantCheck := invariantCheck, mapping := none,
        permutationsChecked := none, optimized := none }
    else
      let degreeGroups1 := buildDegreeGroups g1
      let degreeGroups2 := buildDegreeGroups g2
      if degreeGroups1.length ≠ degreeGroups2.length then
        { isIsomorphic := some false, reason := some "Different number of degree groups",
          invariantCheck := invariantCheck, mapping := none,
          permutationsChecked := none, optimized := none }
      else
        let degrees := degreeGroups1.map fun q => q.1
        let candidates := generateMappings degreeGroups1 degreeGroups2 degrees []
        match searchLoop g1 g2 candidates 0 with
        | some (m, k) =>
          { isIsomorphic := some true, reason := none,
            invariantCheck := invariantCheck, mapping := some m,
            permutationsChecked := some k, optimized := some true }
        | none =>
          { isIsomorphic := some false, reason := some "No valid mapping found",
            invariantCheck := invariantCheck, mapping := none,
            permutationsChecked := some candidates.length, optimized := some true }

-- Sanity checks of the embedding on the concrete scenarios of the README.

/-- Triangle on vertices 1, 2, 3, as built by the example code. -/
def triangleA : Graph :=
  (((Graph.empty false).addEdge 1 2).addEdge 2 3).addEdge 3 1

/-- Triangle on vertices 4, 5, 6. -/
def triangleB : Graph :=
  (((Graph.empty false).addEdge 4 5).addEdge 5 6).addEdge 6 4

example : (detectIsomorphism triangleA triangleB).isIsomorphic = some true := by decide

example : (detectIsomorphismOptimized triangleA triangleB).isIsomorphic = some true := by decide

/-- Path on three vertices. -/
def pathThree : Graph :=
  ((Graph.empty false).addEdge 1 2).addEdge 2 3

example : (detectIsomorphism pathThree triangleA).isIsomorphic = some false := by decide

example : (detectIsomorphism pathThree triangleA).permutationsChecked = none := by decide

example : (checkInvariants pathThree triangleA).checks.edgeCount = false := by decide

-- ## Generic helper lemmas on booleans, options, lists and association lists

theorem beq_comm_lawful {α : Type} [BEq α] [LawfulBEq α] (a b : α) : (a == b) = (b == a) := by
  rw [Bool.eq_iff_iff, beq_iff_eq, beq_iff_eq]
  exact eq_comm

theorem isSome_eq_some_getD {α : Type} (o : Option α) (d : α) (h : o.isSome = true) :
    o = some (o.getD d) := by
  cases o with
  | none => simp at h
  | some a => rfl

theorem lookup_isSome_iff {β : Type} (l : List (Nat × β)) (k : Nat) :
    (l.lookup k).isSome = true ↔ k ∈ l.map Prod.fst := by
  induction l with
  | nil => simp [List.lookup]
  | cons q l ih =>
    obtain ⟨a, b⟩ := q
    by_cases h : k = a
    · subst h
      simp [List.lookup_cons]
    · rw [List.lookup_cons]
      rw [show (k == a) = false by exact beq_eq_false_iff_ne.mpr h]
      simp [ih, h]

theorem lookup_eq_none_iff {β : Type} (l : List (Nat × β)) (k : Nat) :
    l.lookup k = none ↔ k ∉ l.map Prod.fst := by
  rw [← lookup_isSome_iff]
  cases h : l.lookup k <;> simp [h]

theorem lookup_mem {β : Type} (l : List (Nat × β)) (k : Nat) (v : β)
    (h : l.lookup k = some v) : (k, v) ∈ l := by
  induction l with
  | nil => simp [List.lookup] at h
  | cons q l ih =>
    obtain ⟨a, b⟩ := q
    rw [List.lookup_cons] at h
    by_cases hk : k = a
    · subst hk
      rw [show (k == k) = true by exact beq_self_eq_true k] at h
      simp at h
      subst h
      exact List.mem_cons_self _ _
    · rw [show (k == a) = false by exact beq_eq_false_iff_ne.mpr hk] at h
      exact List.mem_cons_of_mem _ (ih h)

theorem nodup_keys_lookup {β : Type} (l : List (Nat × β)) (k : Nat) (v : β)
    (hnd : (l.map Prod.fst).Nodup) (h : (k, v) ∈ l) : l.lookup k = some v := by
  induction l with
  | nil => simp at h
  | cons q l ih =>
    obtain ⟨a, b⟩ := q
    simp only [List.map_cons, List.nodup_cons] at hnd
    rcases List.mem_cons.mp h with h1 | h1
    · rw [Prod.mk.injEq] at h1
      obtain ⟨h1a, h1b⟩ := h1
      subst h1a; subst h1b
      simp [List.lookup_cons]
    · have hk : k ≠ a := by
        intro he
        exact hnd.1 (he ▸ (List.mem_map.mpr ⟨(k, v), h1, rfl⟩))
      rw [List.lookup_cons]
      rw [show (k == a) = false by exact beq_eq_false_iff_ne.mpr hk]
      exact ih hnd.2 h1

theorem lookup_append {β : Type} (l1 l2 : List (Nat × β)) (k : Nat) :
    (l1 ++ l2).lookup k =
      match l1.lookup k with
      | some v => some v
      | none => l2.lookup k := by
  induction l1 with
  | nil => simp [List.lookup]
  | cons q l ih =>
    obtain ⟨a, b⟩ := q
    by_cases h : k = a
    · subst h
      simp [List.lookup_cons]
    · simp only [List.cons_append, List.lookup_cons]
      rw [show (k == a) = false by exact beq_eq_false_iff_ne.mpr h]
      exact ih

theorem lookup_map_pair (l : List Nat) (f : Nat → Nat) (k : Nat) :
    ((l.map fun v => (v, f v)).lookup k) = if k ∈ l then some (f k) else none := by
  induction l with
  | nil => simp [List.lookup]
  | cons a l ih =>
    by_cases h : k = a
    · subst h
      simp [List.lookup_cons]
    · simp only [List.map_cons, List.lookup_cons, List.mem_cons]
      rw [show (k == a) = false by exact beq_eq_false_iff_ne.mpr h]
      simp [ih, h]

theorem zip_map_self (l : List Nat) (f : Nat → Nat) :
    l.zip (l.map f) = l.map fun v => (v, f v) := by
  have := List.zip_map' id f l
  simpa using this

theorem lookup_zip_isSome (vs ps : List Nat) (u : Nat)
    (hmem : u ∈ vs) (hlen : vs.length ≤ ps.length) :
    ((vs.zip ps).lookup u).isSome = true := by
  rw [lookup_isSome_iff, List.map_fst_zip vs ps hlen]
  exact hmem

-- ## Lemmas about permute

theorem pickEach_perm (xs : List Nat) :
    ∀ q ∈ pickEach xs, (q.1 :: q.2).Perm xs := by
  induction xs with
  | nil => simp [pickEach]
  | cons x xs ih =>
    intro q hq
    rcases List.mem_cons.mp hq with h1 | h1
    · subst h1
      exact List.Perm.refl _
    · rcases List.mem_map.mp h1 with ⟨r, hr, hrq⟩
      subst hrq
      have h2 := ih r hr
      exact List.Perm.trans (List.Perm.swap x r.1 r.2) (List.Perm.cons x h2)

theorem pickEach_mem_of_mem (xs : List Nat) (a : Nat) (ha : a ∈ xs) :
    (a, xs.erase a) ∈ pickEach xs := by
  induction xs with
  | nil => simp at ha
  | cons x xs ih =>
    by_cases h : x = a
    · subst h
      simp [pickEach, List.erase_cons_head]
    · have ha2 : a ∈ xs := by
        rcases List.mem_cons.mp ha with h1 | h1
        · exact absurd h1.symm h
        · exact h1
      rw [List.erase_cons_tail (by simpa using h)]
      exact List.mem_cons_of_mem _ (List.mem_map.mpr ⟨(a, xs.erase a), ih ha2, rfl⟩)

theorem permuteAux_sound (fuel : Nat) :
    ∀ (xs l : List Nat), l ∈ permuteAux fuel xs → l.Perm xs := by
  induction fuel with
  | zero =>
    intro xs l h
    simp [permuteAux] at h
    subst h
    exact List.Perm.refl _
  | succ fuel ih =>
    intro xs l h
    rw [permuteAux] at h
    by_cases hlen : xs.length ≤ 1
    · rw [if_pos hlen] at h
      simp at h
      subst h
      exact List.Perm.refl _
    · rw [if_neg hlen] at h
      rcases List.mem_flatMap.mp h with ⟨q, hq, hl⟩
      rcases List.mem_map.mp hl with ⟨p, hp, hpl⟩
      subst hpl
      have h1 := ih q.2 p hp
      exact List.Perm.trans (List.Perm.cons q.1 h1) (pickEach_perm xs q hq)

theorem permuteAux_complete (fuel : Nat) :
    ∀ (xs l : List Nat), xs.length ≤ fuel + 1 → l.Perm xs → l ∈ permuteAux fuel xs := by
  induction fuel with
  | zero =>
    intro xs l hlen hperm
    have : l = xs := by
      match xs, hlen with
      | [], _ => exact List.perm_nil.mp hperm
      | [a], _ => exact List.perm_singleton.mp hperm
    simp [permuteAux, this]
  | succ fuel ih =>
    intro xs l hlen hperm
    rw [permuteAux]
    by_cases hxs : xs.length ≤ 1
    · rw [if_pos hxs]
      have : l = xs := by
        match xs, hxs with
        | [], _ => exact List.perm_nil.mp hperm
        | [a], _ => exact List.perm_singleton.mp hperm
      simp [this]
    · rw [if_neg hxs]
      match l, hperm with
      | [], hperm =>
        have := hperm.length_eq
        simp at this
        omega
      | a :: l2, hperm =>
        have hmem : a ∈ xs ∧ l2.Perm (xs.erase a) := List.cons_perm_iff_perm_erase.mp hperm
        have herase : (xs.erase a).length = xs.length - 1 := List.length_erase_of_mem hmem.1
        have hrec : l2 ∈ permuteAux fuel (xs.erase a) := by
          apply ih
          · omega
          · exact hmem.2
        exact List.mem_flatMap.mpr ⟨(a, xs.erase a), pickEach_mem_of_mem xs a hmem.1,
          List.mem_map.mpr ⟨l2, hrec, rfl⟩⟩

theorem mem_permute_iff (xs l : List Nat) : l ∈ permute xs ↔ l.Perm xs := by
  constructor
  · exact permuteAux_sound xs.length xs l
  · intro h
    match xs with
    | [] =>
      have := List.perm_nil.mp h
      simp [permute, permuteAux, this]
    | x :: t =>
      have hf : l ∈ permuteAux (t.length + 1) (x :: t) :=
        permuteAux_complete (t.length + 1) (x :: t) l (by simp) h
      simpa [permute] using hf

-- ## Lemmas about sortDesc

theorem insertDesc_perm (a : Nat) (l : List Nat) : (insertDesc a l).Perm (a :: l) := by
  induction l with
  | nil => exact List.Perm.refl _
  | cons b l ih =>
    rw [insertDesc]
    by_cases h : b ≤ a
    · rw [if_pos h]
    · rw [if_neg h]
      exact List.Perm.trans (List.Perm.cons b ih) (List.Perm.swap a b l)

theorem sortDesc_perm (l : List Nat) : (sortDesc l).Perm l := by
  induction l with
  | nil => exact List.Perm.refl _
  | cons a l ih =>
    have : sortDesc (a :: l) = insertDesc a (sortDesc l) := rfl
    rw [this]
    exact List.Perm.trans (insertDesc_perm a (sortDesc l)) (List.Perm.cons a ih)

-- ## Well-formedness of graphs

/-- State invariant of the `Graph` class: the vertex set has no duplicates,
the adjacency map holds exactly one entry per vertex (in the same order),
every recorded neighbor is a vertex, and both endpoints of every recorded
edge are vertices. Every graph reachable through the class methods
satisfies it. -/
def Graph.WF (g : Graph) : Prop :=
  g.vertices.Nodup ∧
  g.adjacencyList.map Prod.fst = g.vertices ∧
  (∀ q ∈ g.adjacencyList, ∀ v ∈ q.2, v ∈ g.vertices) ∧
  (∀ e ∈ g.edges, e.1 ∈ g.vertices ∧ e.2 ∈ g.vertices)

instance (g : Graph) : Decidable g.WF := by
  unfold Graph.WF
  infer_instance

/-- Condition under which the degree of a vertex and its boolean adjacency
carry the same information: no neighbor list stores a duplicate entry.
A graph built without repeating an edge (and, when undirected, without
self-loops) satisfies it. -/
def Graph.NodupAdjacency (g : Graph) : Prop :=
  ∀ q ∈ g.adjacencyList, q.2.Nodup

instance (g : Graph) : Decidable g.NodupAdjacency := by
  unfold Graph.NodupAdjacency
  infer_instance

theorem getNeighbors_subset (g : Graph) (hwf : g.WF) (u : Nat) :
    ∀ v ∈ g.getNeighbors u, v ∈ g.vertices := by
  intro v hv
  unfold Graph.getNeighbors at hv
  cases h : g.adjacencyList.lookup u with
  | none => rw [h] at hv; simp at hv
  | some l =>
    rw [h] at hv
    simp at hv
    exact hwf.2.2.1 (u, l) (lookup_mem _ _ _ h) v hv

theorem getNeighbors_nodup (g : Graph) (hna : g.NodupAdjacency) (u : Nat) :
    (g.getNeighbors u).Nodup := by
  unfold Graph.getNeighbors
  cases h : g.adjacencyList.lookup u with
  | none => simp
  | some l =>
    simp only [Option.getD_some]
    exact hna (u, l) (lookup_mem _ _ _ h)

theorem areAdjacent_iff (g : Graph) (u v : Nat) :
    g.areAdjacent u v = true ↔ v ∈ g.getNeighbors u := by
  unfold Graph.areAdjacent Graph.getNeighbors
  cases h : g.adjacencyList.lookup u with
  | none => simp
  | some l => simp [List.contains]

theorem getDegree_eq_filter (g : Graph) (hwf : g.WF) (hna : g.NodupAdjacency) (u : Nat) :
    g.getDegree u = (g.vertices.filter fun v => g.areAdjacent u v).length := by
  have h1 : (g.getNeighbors u).Perm (g.vertices.filter fun v => g.areAdjacent u v) := by
    rw [List.perm_ext_iff_of_nodup (getNeighbors_nodup g hna u) (List.Nodup.filter _ hwf.1)]
    intro v
    rw [List.mem_filter]
    constructor
    · intro hv
      exact ⟨getNeighbors_subset g hwf u v hv, (areAdjacent_iff g u v).mpr hv⟩
    · intro hv
      exact (areAdjacent_iff g u v).mp hv.2
  unfold Graph.getDegree
  exact h1.length_eq

-- ## Lemmas about isValidMapping and searchLoop

theorem areAdjacentOpt_some (g : Graph) (x y : Nat) :
    areAdjacentOpt g (some x) (some y) = g.areAdjacent x y := rfl

theorem isValidMapping_iff (g1 g2 : Graph) (m : List (Nat × Nat)) :
    isValidMapping g1 g2 m = true ↔
      ∀ u ∈ g1.vertices, ∀ v ∈ g1.vertices,
        g1.areAdjacent u v = areAdjacentOpt g2 (m.lookup u) (m.lookup v) := by
  unfold isValidMapping
  simp only [List.all_eq_true, beq_iff_eq]

theorem isValidMapping_ext (g1 g2 : Graph) (m1 m2 : List (Nat × Nat))
    (h : ∀ u ∈ g1.vertices, m1.lookup u = m2.lookup u) :
    isValidMapping g1 g2 m1 = isValidMapping g1 g2 m2 := by
  unfold isValidMapping
  rw [Bool.eq_iff_iff]
  simp only [List.all_eq_true, beq_iff_eq]
  constructor
  · intro hh v1 hv1 v2 hv2
    have h3 := hh v1 hv1 v2 hv2
    rwa [h v1 hv1, h v2 hv2] at h3
  · intro hh v1 hv1 v2 hv2
    have h3 := hh v1 hv1 v2 hv2
    rwa [h v1 hv1, h v2 hv2]

theorem searchLoop_eq_none_iff (g1 g2 : Graph) (cands : List (List (Nat × Nat))) :
    ∀ c : Nat, searchLoop g1 g2 cands c = none ↔
      ∀ m ∈ cands, isValidMapping g1 g2 m = false := by
  induction cands with
  | nil => intro c; simp [searchLoop]
  | cons m rest ih =>
    intro c
    rw [searchLoop]
    by_cases h : isValidMapping g1 g2 m = true
    · simp [h]
    · rw [if_neg h]
      simp only [Bool.not_eq_true] at h
      simp [h, ih (c + 1)]

theorem searchLoop_isSome_iff (g1 g2 : Graph) (cands : List (List (Nat × Nat))) :
    ∀ c : Nat, (searchLoop g1 g2 cands c).isSome = true ↔
      ∃ m ∈ cands, isValidMapping g1 g2 m = true := by
  induction cands with
  | nil => intro c; simp [searchLoop]
  | cons m rest ih =>
    intro c
    rw [searchLoop]
    by_cases h : isValidMapping g1 g2 m = true
    · simp [h]
    · rw [if_neg h]
      simp only [Bool.not_eq_true] at h
      simp [h, ih (c + 1)]

theorem searchLoop_some_mem (g1 g2 : Graph) (cands : List (List (Nat × Nat))) :
    ∀ (c : Nat) (m : List (Nat × Nat)) (k : Nat),
      searchLoop g1 g2 cands c = some (m, k) →
      m ∈ cands ∧ isValidMapping g1 g2 m = true := by
  induction cands with
  | nil => intro c m k h; simp [searchLoop] at h
  | cons m0 rest ih =>
    intro c m k h
    rw [searchLoop] at h
    by_cases h0 : isValidMapping g1 g2 m0 = true
    · rw [if_pos h0] at h
      simp only [Option.some.injEq, Prod.mk.injEq] at h
      exact ⟨h.1 ▸ List.mem_cons_self _ _, h.1 ▸ h0⟩
    · rw [if_neg h0] at h
      rcases ih (c + 1) m k h with ⟨h1, h2⟩
      exact ⟨List.mem_cons_of_mem _ h1, h2⟩

-- ## Counting and partition lemmas

theorem count_filter_eq (p : Nat → Nat) (d : Nat) (vs : List Nat) (x : Nat) :
    List.count x (vs.filter fun v => p v == d) =
      if p x = d then List.count x vs else 0 := by
  by_cases h : p x = d
  · rw [if_pos h]
    exact List.count_filter (by simpa using h)
  · rw [if_neg h]
    rw [List.count_eq_zero]
    intro hx
    exact h (by simpa using (List.mem_filter.mp hx).2)

theorem count_flatMap_groups (p : Nat → Nat) (vs : List Nat) (x : Nat) :
    ∀ ds : List Nat, ds.Nodup →
    List.count x (ds.flatMap fun d => vs.filter fun v => p v == d) =
      if p x ∈ ds then List.count x vs else 0 := by
  intro ds
  induction ds with
  | nil => simp
  | cons d ds ih =>
    intro hnd
    rw [List.flatMap_cons, List.count_append, count_filter_eq, ih (List.nodup_cons.mp hnd).2]
    by_cases h1 : p x = d
    · have h2 : p x ∉ ds := h1 ▸ (List.nodup_cons.mp hnd).1
      rw [if_pos h1, if_neg h2, if_pos (List.mem_cons.mpr (Or.inl h1))]
      omega
    · rw [if_neg h1]
      by_cases h2 : p x ∈ ds
      · rw [if_pos h2, if_pos (List.mem_cons.mpr (Or.inr h2))]
        omega
      · rw [if_neg h2, if_neg (by simp [h1, h2])]

theorem flatMap_filter_perm (p : Nat → Nat) (vs : List Nat) (ds : List Nat)
    (hnd : ds.Nodup) (hcov : ∀ v ∈ vs, p v ∈ ds) :
    (ds.flatMap fun d => vs.filter fun v => p v == d).Perm vs := by
  rw [List.perm_iff_count]
  intro x
  rw [count_flatMap_groups p vs x ds hnd]
  by_cases h : p x ∈ ds
  · rw [if_pos h]
  · rw [if_neg h, eq_comm, List.count_eq_zero]
    intro hx
    exact h (hcov x hx)

theorem filter_length_eq_count (p : Nat → Nat) (d : Nat) (vs : List Nat) :
    (vs.filter fun v => p v == d).length = List.count d (vs.map p) := by
  rw [← List.countP_eq_length_filter, List.count, List.countP_map]
  rfl

-- ## Lemmas about the degree groups of detectIsomorphismOptimized

theorem adjAppend_cons (a : Nat) (b : List Nat) (l : List (Nat × List Nat)) (k v : Nat) :
    adjAppend ((a, b) :: l) k v =
      (if a = k then (a, b ++ [v]) else (a, b)) :: adjAppend l k v := by
  rfl

theorem adjAppend_keys (l : List (Nat × List Nat)) (k v : Nat) :
    (adjAppend l k v).map Prod.fst = l.map Prod.fst := by
  unfold adjAppend
  rw [List.map_map]
  apply List.map_congr_left
  intro q hq
  by_cases h : q.1 = k <;> simp [h]

theorem adjAppend_lookup (l : List (Nat × List Nat)) (k k2 v : Nat) :
    (adjAppend l k v).lookup k2 =
      if k2 = k then (l.lookup k).map (fun ns => ns ++ [v]) else l.lookup k2 := by
  induction l with
  | nil => simp [adjAppend, List.lookup]
  | cons q l ih =>
    obtain ⟨a, b⟩ := q
    rw [adjAppend_cons]
    by_cases hak : a = k
    · subst hak
      rw [if_pos rfl]
      by_cases hk2 : k2 = a
      · subst hk2
        rw [if_pos rfl]
        simp [List.lookup_cons]
      · rw [if_neg hk2, List.lookup_cons, List.lookup_cons]
        rw [show (k2 == a) = false from beq_eq_false_iff_ne.mpr hk2]
        simpa [hk2] using ih
    · rw [if_neg hak]
      have hR1 : List.lookup k ((a, b) :: l) = List.lookup k l := by
        rw [List.lookup_cons]
        rw [show (k == a) = false from beq_eq_false_iff_ne.mpr fun he => hak he.symm]
      by_cases hk2 : k2 = a
      · subst hk2
        rw [if_neg hak]
        simp [List.lookup_cons]
      · by_cases hx : k2 = k
        · rw [if_pos hx, hR1, List.lookup_cons]
          rw [show (k2 == a) = false from beq_eq_false_iff_ne.mpr hk2]
          rw [ih, if_pos hx]
        · rw [if_neg hx, List.lookup_cons, List.lookup_cons]
          rw [show (k2 == a) = false from beq_eq_false_iff_ne.mpr hk2]
          rw [ih, if_neg hx]

theorem insertGroup_lookup_self (groups : List (Nat × List Nat)) (d v : Nat) :
    (insertGroup groups d v).lookup d = some (((groups.lookup d).getD []) ++ [v]) := by
  unfold insertGroup
  by_cases h : (groups.lookup d).isSome = true
  · rw [if_pos h, adjAppend_lookup, if_pos rfl]
    cases hl : groups.lookup d with
    | none => rw [hl] at h; simp at h
    | some l => simp
  · rw [if_neg h, lookup_append]
    cases hl : groups.lookup d with
    | some l => rw [hl] at h; simp at h
    | none =>
      rw [List.lookup_cons]
      simp

theorem insertGroup_lookup_other (groups : List (Nat × List Nat)) (d v d2 : Nat)
    (h : d2 ≠ d) : (insertGroup groups d v).lookup d2 = groups.lookup d2 := by
  unfold insertGroup
  by_cases hs : (groups.lookup d).isSome = true
  · rw [if_pos hs, adjAppend_lookup, if_neg h]
  · rw [if_neg hs, lookup_append]
    cases hl : groups.lookup d2 with
    | some l => simp
    | none =>
      rw [List.lookup_cons]
      rw [show (d2 == d) = false from beq_eq_false_iff_ne.mpr h]
      simp [List.lookup]

theorem insertGroup_keys_nodup (groups : List (Nat × List Nat)) (d v : Nat)
    (h : (groups.map Prod.fst).Nodup) :
    ((insertGroup groups d v).map Prod.fst).Nodup := by
  unfold insertGroup
  by_cases hs : (groups.lookup d).isSome = true
  · rw [if_pos hs, adjAppend_keys]
    exact h
  · rw [if_neg hs, List.map_append, List.nodup_append]
    refine ⟨h, by simp, ?_⟩
    intro a ha hb
    simp at hb
    subst hb
    have hnone : groups.lookup a = none := by
      cases hl : groups.lookup a with
      | none => rfl
      | some l => rw [hl] at hs; simp at hs
    exact (lookup_eq_none_iff groups a).mp hnone ha

theorem foldl_insertGroup_inv (g : Graph) (rest : List Nat) :
    ∀ (processed : List Nat) (groups : List (Nat × List Nat)),
    (groups.map Prod.fst).Nodup →
    (∀ d, groups.lookup d =
      if (processed.filter fun v => g.getDegree v == d) = [] then none
      else some (processed.filter fun v => g.getDegree v == d)) →
    ((rest.foldl (fun gs v => insertGroup gs (g.getDegree v) v) groups).map Prod.fst).Nodup ∧
    (∀ d, (rest.foldl (fun gs v => insertGroup gs (g.getDegree v) v) groups).lookup d =
      if ((processed ++ rest).filter fun v => g.getDegree v == d) = [] then none
      else some ((processed ++ rest).filter fun v => g.getDegree v == d)) := by
  induction rest with
  | nil =>
    intro processed groups h1 h2
    rw [List.foldl_nil]
    refine ⟨h1, fun d => ?_⟩
    rw [List.append_nil]
    exact h2 d
  | cons v rest ih =>
    intro processed groups h1 h2
    rw [List.foldl_cons]
    have hstep := ih (processed ++ [v]) (insertGroup groups (g.getDegree v) v)
      (insertGroup_keys_nodup _ _ _ h1) ?_
    · rw [List.append_assoc] at hstep
      simpa using hstep
    · intro d
      by_cases hd : d = g.getDegree v
      · rw [hd, insertGroup_lookup_self, h2 (g.getDegree v)]
        rw [List.filter_append]
        rw [show List.filter (fun v2 => g.getDegree v2 == g.getDegree v) [v] = [v] from
          by simp]
        by_cases hf : (processed.filter fun v2 => g.getDegree v2 == g.getDegree v) = []
        · rw [if_pos hf, hf]
          simp
        · rw [if_neg hf, if_neg (by simp [hf])]
          simp
      · rw [insertGroup_lookup_other _ _ _ _ hd, h2 d]
        rw [List.filter_append]
        rw [show List.filter (fun v2 => g.getDegree v2 == d) [v] = [] from
          List.filter_eq_nil_iff.mpr (by
            intro a ha
            rw [List.mem_singleton] at ha
            subst ha
            simp only [beq_iff_eq]
            exact fun he => hd he.symm)]
        simp

theorem buildDegreeGroups_lookup (g : Graph) (d : Nat) :
    (buildDegreeGroups g).lookup d =
      if (g.vertices.filter fun v => g.getDegree v == d) = [] then none
      else some (g.vertices.filter fun v => g.getDegree v == d) := by
  have h := foldl_insertGroup_inv g g.vertices [] []
    (by simp) (by intro d2; simp [List.lookup])
  have h2 := h.2 d
  simpa [buildDegreeGroups] using h2

theorem buildDegreeGroups_keys_nodup (g : Graph) :
    ((buildDegreeGroups g).map Prod.fst).Nodup := by
  have h := foldl_insertGroup_inv g g.vertices [] []
    (by simp) (by intro d2; simp [List.lookup])
  simpa [buildDegreeGroups] using h.1

theorem mem_buildDegreeGroups_keys (g : Graph) (d : Nat) :
    d ∈ (buildDegreeGroups g).map Prod.fst ↔ d ∈ g.vertices.map fun v => g.getDegree v := by
  rw [← lookup_isSome_iff, buildDegreeGroups_lookup]
  by_cases hf : (g.vertices.filter fun v => g.getDegree v == d) = []
  · rw [if_pos hf]
    simp only [Option.isSome_none, Bool.false_eq_true, false_iff]
    intro hmem
    rcases List.mem_map.mp hmem with ⟨v, hv, hdv⟩
    rw [List.filter_eq_nil_iff] at hf
    exact hf v hv (by simpa using hdv)
  · rw [if_neg hf]
    simp only [Option.isSome_some, true_iff]
    rcases List.exists_mem_of_ne_nil _ hf with ⟨v, hv⟩
    rcases List.mem_filter.mp hv with ⟨hv1, hv2⟩
    exact List.mem_map.mpr ⟨v, hv1, by simpa using hv2⟩

-- ## Consequences of a passing invariant check

theorem invariant_pass_iff (g1 g2 : Graph) :
    (checkInvariants g1 g2).isomorphismPossible = true ↔
      g1.getVertexCount = g2.getVertexCount ∧ g1.getEdgeCount = g2.getEdgeCount ∧
      g1.getDegreeSequence = g2.getDegreeSequence := by
  unfold checkInvariants
  simp only [Bool.and_eq_true, beq_iff_eq]
  tauto

theorem degree_count_eq_of_pass (g1 g2 : Graph)
    (h : (checkInvariants g1 g2).isomorphismPossible = true) (d : Nat) :
    List.count d (g1.vertices.map fun v => g1.getDegree v) =
      List.count d (g2.vertices.map fun v => g2.getDegree v) := by
  have h3 := ((invariant_pass_iff g1 g2).mp h).2.2
  unfold Graph.getDegreeSequence at h3
  have p1 := sortDesc_perm (g1.vertices.map fun v => g1.getDegree v)
  have p2 := sortDesc_perm (g2.vertices.map fun v => g2.getDegree v)
  have hperm : (g1.vertices.map fun v => g1.getDegree v).Perm
      (g2.vertices.map fun v => g2.getDegree v) :=
    List.Perm.trans (h3 ▸ p1.symm) p2
  exact List.perm_iff_count.mp hperm d

theorem buildDegreeGroups_getD (g : Graph) (d : Nat) :
    ((buildDegreeGroups g).lookup d).getD [] =
      g.vertices.filter fun v => g.getDegree v == d := by
  rw [buildDegreeGroups_lookup]
  by_cases hf : (g.vertices.filter fun v => g.getDegree v == d) = []
  · rw [if_pos hf, hf]
    rfl
  · rw [if_neg hf]
    rfl

theorem group_length_eq_of_pass (g1 g2 : Graph)
    (h : (checkInvariants g1 g2).isomorphismPossible = true) (d : Nat) :
    (((buildDegreeGroups g2).lookup d).getD []).length =
      (((buildDegreeGroups g1).lookup d).getD []).length := by
  rw [buildDegreeGroups_getD, buildDegreeGroups_getD,
    filter_length_eq_count, filter_length_eq_count]
  exact (degree_count_eq_of_pass g1 g2 h d).symm

theorem groups_keys_perm_of_pass (g1 g2 : Graph)
    (h : (checkInvariants g1 g2).isomorphismPossible = true) :
    ((buildDegreeGroups g1).map Prod.fst).Perm ((buildDegreeGroups g2).map Prod.fst) := by
  rw [List.perm_ext_iff_of_nodup (buildDegreeGroups_keys_nodup g1)
    (buildDegreeGroups_keys_nodup g2)]
  intro d
  rw [mem_buildDegreeGroups_keys, mem_buildDegreeGroups_keys,
    ← List.count_pos_iff, ← List.count_pos_iff, degree_count_eq_of_pass g1 g2 h d]

theorem groups_length_eq_of_pass (g1 g2 : Graph)
    (h : (checkInvariants g1 g2).isomorphismPossible = true) :
    (buildDegreeGroups g1).length = (buildDegreeGroups g2).length := by
  have h2 := (groups_keys_perm_of_pass g1 g2 h).length_eq
  simpa using h2

-- ## Lemmas about generateMappings

theorem flatMap_congr_local {α β : Type} (ds : List α) (F G : α → List β)
    (h : ∀ d ∈ ds, F d = G d) : ds.flatMap F = ds.flatMap G := by
  induction ds with
  | nil => rfl
  | cons d ds ih =>
    rw [List.flatMap_cons, List.flatMap_cons, h d (List.mem_cons_self _ _),
      ih fun d2 hd2 => h d2 (List.mem_cons_of_mem _ hd2)]

theorem flatMap_groups_perm (g : Graph) (ds : List Nat)
    (hnd : ds.Nodup) (hcov : ∀ v ∈ g.vertices, g.getDegree v ∈ ds) :
    (ds.flatMap fun d => ((buildDegreeGroups g).lookup d).getD []).Perm g.vertices := by
  rw [flatMap_congr_local ds _ _ fun d _ => buildDegreeGroups_getD g d]
  exact flatMap_filter_perm (fun v => g.getDegree v) g.vertices ds hnd hcov

theorem generateMappings_sound (dg1 dg2 : List (Nat × List Nat)) :
    ∀ (ds : List Nat) (cur m : List (Nat × Nat)),
    (∀ d ∈ ds, ((dg2.lookup d).getD []).length = ((dg1.lookup d).getD []).length) →
    m ∈ generateMappings dg1 dg2 ds cur →
    m.map Prod.fst = cur.map Prod.fst ++ ds.flatMap (fun d => (dg1.lookup d).getD []) ∧
    (m.map Prod.snd).Perm (cur.map Prod.snd ++ ds.flatMap fun d => (dg2.lookup d).getD []) := by
  intro ds
  induction ds with
  | nil =>
    intro cur m hlen hm
    simp only [generateMappings, List.mem_singleton] at hm
    subst hm
    simp
  | cons d ds ih =>
    intro cur m hlen hm
    simp only [generateMappings] at hm
    rcases List.mem_flatMap.mp hm with ⟨perm, hperm, hm2⟩
    have hpm : perm.Perm ((dg2.lookup d).getD []) := (mem_permute_iff _ _).mp hperm
    have hlen1 : ((dg1.lookup d).getD []).length = perm.length := by
      rw [hpm.length_eq]
      exact (hlen d (List.mem_cons_self _ _)).symm
    rcases ih (cur ++ ((dg1.lookup d).getD []).zip perm) m
      (fun d2 hd2 => hlen d2 (List.mem_cons_of_mem _ hd2)) hm2 with ⟨ihf, ihs⟩
    constructor
    · rw [ihf, List.map_append, List.map_fst_zip _ _ (le_of_eq hlen1), List.flatMap_cons,
        List.append_assoc]
    · rw [List.flatMap_cons]
      refine ihs.trans ?_
      rw [List.map_append, List.map_snd_zip _ _ (le_of_eq hlen1.symm), List.append_assoc]
      exact List.Perm.append_left _ (List.Perm.append_right _ hpm)

theorem generateMappings_complete (dg1 dg2 : List (Nat × List Nat)) :
    ∀ (ds : List Nat) (cur : List (Nat × Nat)) (f : Nat → Nat),
    (∀ d ∈ ds, (((dg1.lookup d).getD []).map f) ∈ permute ((dg2.lookup d).getD [])) →
    (cur ++ ds.flatMap fun d => ((dg1.lookup d).getD []).map fun v => (v, f v)) ∈
      generateMappings dg1 dg2 ds cur := by
  intro ds
  induction ds with
  | nil =>
    intro cur f hf
    simp [generateMappings]
  | cons d ds ih =>
    intro cur f hf
    simp only [generateMappings]
    apply List.mem_flatMap.mpr
    refine ⟨((dg1.lookup d).getD []).map f, hf d (List.mem_cons_self _ _), ?_⟩
    rw [zip_map_self]
    have hrec := ih (cur ++ ((dg1.lookup d).getD []).map fun v => (v, f v)) f
      fun d2 hd2 => hf d2 (List.mem_cons_of_mem _ hd2)
    rw [List.flatMap_cons, ← List.append_assoc]
    exact hrec

-- ## Candidate mapping functions

/-- Function view of a candidate mapping: the image of a vertex under the
association list, with an irrelevant default. -/
def mapFun (m : List (Nat × Nat)) (v : Nat) : Nat :=
  (m.lookup v).getD 0

theorem lookup_eq_mapFun (m : List (Nat × Nat)) (u : Nat)
    (h : (m.lookup u).isSome = true) : m.lookup u = some (mapFun m u) :=
  isSome_eq_some_getD _ _ h

theorem map_snd_eq_map_mapFun (m : List (Nat × Nat)) (hnd : (m.map Prod.fst).Nodup) :
    m.map Prod.snd = (m.map Prod.fst).map (mapFun m) := by
  rw [List.map_map]
  apply List.map_congr_left
  intro q hq
  show q.2 = mapFun m q.1
  unfold mapFun
  rw [nodup_keys_lookup m q.1 q.2 hnd hq]
  rfl

theorem zip_candidate_facts (g1 g2 : Graph) (p : List Nat)
    (hnd1 : g1.vertices.Nodup)
    (hp : p.Perm g2.vertices) (hlen : g1.vertices.length = g2.vertices.length) :
    (g1.vertices.map (mapFun (g1.vertices.zip p)) = p) ∧
    (∀ u ∈ g1.vertices, (g1.vertices.zip p).lookup u =
      some (mapFun (g1.vertices.zip p) u)) := by
  have hlp : g1.vertices.length = p.length := by rw [hp.length_eq]; exact hlen
  have hfst : (g1.vertices.zip p).map Prod.fst = g1.vertices :=
    List.map_fst_zip _ _ (le_of_eq hlp)
  have hsnd : (g1.vertices.zip p).map Prod.snd = p :=
    List.map_snd_zip _ _ (le_of_eq hlp.symm)
  have hkeys : ((g1.vertices.zip p).map Prod.fst).Nodup := by
    rw [hfst]; exact hnd1
  constructor
  · have h2 := map_snd_eq_map_mapFun _ hkeys
    rw [hfst] at h2
    rw [← h2]
    exact hsnd
  · intro u hu
    apply lookup_eq_mapFun
    exact lookup_zip_isSome _ _ _ hu (le_of_eq hlp)

-- ## Branch characterizations of the two search functions

/-- Proposition that the brute-force loop finds a valid candidate: some
permutation of the vertices of `g2`, paired with the vertices of `g1`,
preserves adjacency. -/
def ExistsBruteWitness (g1 g2 : Graph) : Prop :=
  ∃ p ∈ permute g2.vertices, isValidMapping g1 g2 (g1.vertices.zip p) = true

instance (g1 g2 : Graph) : Decidable (ExistsBruteWitness g1 g2) := by
  unfold ExistsBruteWitness
  infer_instance

/-- Proposition that the degree-partitioned loop finds a valid candidate. -/
def ExistsOptWitness (g1 g2 : Graph) : Prop :=
  ∃ m ∈ generateMappings (buildDegreeGroups g1) (buildDegreeGroups g2)
    ((buildDegreeGroups g1).map Prod.fst) [], isValidMapping g1 g2 m = true

instance (g1 g2 : Graph) : Decidable (ExistsOptWitness g1 g2) := by
  unfold ExistsOptWitness
  infer_instance

theorem detectIsomorphism_invariant_fail (g1 g2 : Graph) (mv : Nat)
    (h : (checkInvariants g1 g2).isomorphismPossible = false) :
    detectIsomorphism g1 g2 mv =
      { isIsomorphic := some false, reason := some "Invariants do not match",
        invariantCheck := checkInvariants g1 g2, mapping := none,
        permutationsChecked := none, optimized := none } := by
  unfold detectIsomorphism
  simp only [h]
  simp

theorem detectIsomorphismOptimized_invariant_fail (g1 g2 : Graph) (mv : Nat)
    (h : (checkInvariants g1 g2).isomorphismPossible = false) :
    detectIsomorphismOptimized g1 g2 mv =
      { isIsomorphic := some false, reason := some "Invariants do not match",
        invariantCheck := checkInvariants g1 g2, mapping := none,
        permutationsChecked := none, optimized := none } := by
  unfold detectIsomorphismOptimized
  simp only [h]
  simp

theorem detectIsomorphism_too_large (g1 g2 : Graph) (mv : Nat)
    (hpass : (checkInvariants g1 g2).isomorphismPossible = true)
    (hbig : g1.getVertexCount > mv) :
    detectIsomorphism g1 g2 mv =
      { isIsomorphic := none,
        reason := some (tooLargeReasonBrute g1.getVertexCount mv),
        invariantCheck := checkInvariants g1 g2, mapping := none,
        permutationsChecked := none, optimized := none } := by
  unfold detectIsomorphism
  simp only [hpass]
  rw [if_neg (by simp), if_pos hbig]

theorem detectIsomorphismOptimized_too_large (g1 g2 : Graph) (mv : Nat)
    (hpass : (checkInvariants g1 g2).isomorphismPossible = true)
    (hbig : g1.getVertexCount > mv) :
    detectIsomorphismOptimized g1 g2 mv =
      { isIsomorphic := none,
        reason := some (tooLargeReasonOpt g1.getVertexCount mv),
        invariantCheck := checkInvariants g1 g2, mapping := none,
        permutationsChecked := none, optimized := none } := by
  unfold detectIsomorphismOptimized
  simp only [hpass]
  rw [if_neg (by simp), if_pos hbig]

theorem detectIsomorphism_verdict (g1 g2 : Graph) (mv : Nat)
    (hpass : (checkInvariants g1 g2).isomorphismPossible = true)
    (hsmall : g1.getVertexCount ≤ mv) :
    (detectIsomorphism g1 g2 mv).isIsomorphic =
      some (decide (ExistsBruteWitness g1 g2)) := by
  unfold detectIsomorphism
  simp only [hpass]
  rw [if_neg (by simp), if_neg (by omega)]
  cases hsl : searchLoop g1 g2 ((permute g2.vertices).map fun perm => g1.vertices.zip perm) 0 with
  | some r =>
    obtain ⟨m, k⟩ := r
    rcases searchLoop_some_mem g1 g2 _ 0 m k hsl with ⟨hmem, hvalid⟩
    rcases List.mem_map.mp hmem with ⟨p, hp, hpm⟩
    have hP : ExistsBruteWitness g1 g2 := ⟨p, hp, hpm ▸ hvalid⟩
    simp [decide_eq_true hP]
  | none =>
    have hnone := (searchLoop_eq_none_iff g1 g2 _ 0).mp hsl
    have hnP : ¬ExistsBruteWitness g1 g2 := by
      rintro ⟨p, hp, hvalid⟩
      have h2 := hnone (g1.vertices.zip p) (List.mem_map.mpr ⟨p, hp, rfl⟩)
      rw [hvalid] at h2
      exact Bool.true_eq_false.mp h2
    simp [decide_eq_false hnP]

theorem detectIsomorphismOptimized_verdict (g1 g2 : Graph) (mv : Nat)
    (hpass : (checkInvariants g1 g2).isomorphismPossible = true)
    (hsmall : g1.getVertexCount ≤ mv) :
    (detectIsomorphismOptimized g1 g2 mv).isIsomorphic =
      some (decide (ExistsOptWitness g1 g2)) := by
  unfold detectIsomorphismOptimized
  simp only [hpass]
  rw [if_neg (by simp), if_neg (by omega),
    if_neg (not_ne_iff.mpr (groups_length_eq_of_pass g1 g2 hpass))]
  cases hsl : searchLoop g1 g2 (generateMappings (buildDegreeGroups g1)
      (buildDegreeGroups g2) ((buildDegreeGroups g1).map fun q => q.1) []) 0 with
  | some r =>
    obtain ⟨m, k⟩ := r
    rcases searchLoop_some_mem g1 g2 _ 0 m k hsl with ⟨hmem, hvalid⟩
    have hP : ExistsOptWitness g1 g2 := by
      refine ⟨m, ?_, hvalid⟩
      simpa [Function.comp] using hmem
    simp [decide_eq_true hP]
  | none =>
    have hnone := (searchLoop_eq_none_iff g1 g2 _ 0).mp hsl
    have hnP : ¬ExistsOptWitness g1 g2 := by
      rintro ⟨m, hm, hvalid⟩
      have h2 := hnone m (by simpa [Function.comp] using hm)
      rw [hvalid] at h2
      exact Bool.true_eq_false.mp h2
    simp [decide_eq_false hnP]

-- ## A valid mapping preserves adjacency and, on duplicate-free
-- ## adjacency lists, vertex degrees

theorem valid_zip_facts (g1 g2 : Graph) (p : List Nat)
    (hnd1 : g1.vertices.Nodup)
    (hp : p.Perm g2.vertices)
    (hlen : g1.vertices.length = g2.vertices.length)
    (hvalid : isValidMapping g1 g2 (g1.vertices.zip p) = true) :
    (∀ u ∈ g1.vertices, mapFun (g1.vertices.zip p) u ∈ g2.vertices) ∧
    (∀ u ∈ g1.vertices, ∀ v ∈ g1.vertices,
      g1.areAdjacent u v =
        g2.areAdjacent (mapFun (g1.vertices.zip p) u) (mapFun (g1.vertices.zip p) v)) := by
  obtain ⟨hmap, hlook⟩ := zip_candidate_facts g1 g2 p hnd1 hp hlen
  constructor
  · intro u hu
    have h2 : mapFun (g1.vertices.zip p) u ∈ g1.vertices.map (mapFun (g1.vertices.zip p)) :=
      List.mem_map_of_mem _ hu
    rw [hmap] at h2
    exact hp.mem_iff.mp h2
  · intro u hu v hv
    have h2 := (isValidMapping_iff g1 g2 _).mp hvalid u hu v hv
    rw [hlook u hu, hlook v hv, areAdjacentOpt_some] at h2
    exact h2

theorem valid_degree_preserved (g1 g2 : Graph) (f : Nat → Nat)
    (hwf1 : g1.WF) (hwf2 : g2.WF)
    (hna1 : g1.NodupAdjacency) (hna2 : g2.NodupAdjacency)
    (himg : (g1.vertices.map f).Perm g2.vertices)
    (hadj : ∀ u ∈ g1.vertices, ∀ v ∈ g1.vertices,
      g1.areAdjacent u v = g2.areAdjacent (f u) (f v)) :
    ∀ v ∈ g1.vertices, g2.getDegree (f v) = g1.getDegree v := by
  intro v hv
  rw [getDegree_eq_filter g1 hwf1 hna1 v, getDegree_eq_filter g2 hwf2 hna2 (f v)]
  have hperm : (g2.vertices.filter fun u => g2.areAdjacent (f v) u).Perm
      ((g1.vertices.map f).filter fun u => g2.areAdjacent (f v) u) :=
    (himg.filter _).symm
  have heq : (g1.vertices.map f).filter (fun u => g2.areAdjacent (f v) u) =
      (g1.vertices.filter fun u => g2.areAdjacent (f v) (f u)).map f := by
    rw [List.filter_map]
    rfl
  have heq2 : (g1.vertices.filter fun u => g2.areAdjacent (f v) (f u)) =
      g1.vertices.filter fun u => g1.areAdjacent v u := by
    apply List.filter_congr
    intro u hu
    exact (hadj v hv u hu).symm
  have hlen := hperm.length_eq
  rw [heq, heq2, List.length_map] at hlen
  exact hlen

-- ## Equivalence of the two candidate spaces on duplicate-free adjacency

theorem exists_opt_iff_exists_brute (g1 g2 : Graph)
    (hwf1 : g1.WF) (hwf2 : g2.WF)
    (hna1 : g1.NodupAdjacency) (hna2 : g2.NodupAdjacency)
    (hpass : (checkInvariants g1 g2).isomorphismPossible = true) :
    ExistsOptWitness g1 g2 ↔ ExistsBruteWitness g1 g2 := by
  have hlen : g1.vertices.length = g2.vertices.length :=
    ((invariant_pass_iff g1 g2).mp hpass).1
  have hknd := buildDegreeGroups_keys_nodup g1
  have hcov1 : ∀ v ∈ g1.vertices,
      g1.getDegree v ∈ (buildDegreeGroups g1).map Prod.fst := by
    intro v hv
    rw [mem_buildDegreeGroups_keys]
    exact List.mem_map_of_mem _ hv
  have hcov2 : ∀ v ∈ g2.vertices,
      g2.getDegree v ∈ (buildDegreeGroups g1).map Prod.fst := by
    intro v hv
    rw [mem_buildDegreeGroups_keys, ← List.count_pos_iff,
      degree_count_eq_of_pass g1 g2 hpass, List.count_pos_iff]
    exact List.mem_map_of_mem _ hv
  have hpart1 : (((buildDegreeGroups g1).map Prod.fst).flatMap fun d =>
      ((buildDegreeGroups g1).lookup d).getD []).Perm g1.vertices :=
    flatMap_groups_perm g1 _ hknd hcov1
  have hpart2 : (((buildDegreeGroups g1).map Prod.fst).flatMap fun d =>
      ((buildDegreeGroups g2).lookup d).getD []).Perm g2.vertices :=
    flatMap_groups_perm g2 _ hknd hcov2
  have hlen_d : ∀ d ∈ (buildDegreeGroups g1).map Prod.fst,
      (((buildDegreeGroups g2).lookup d).getD []).length =
      (((buildDegreeGroups g1).lookup d).getD []).length :=
    fun d _ => group_length_eq_of_pass g1 g2 hpass d
  constructor
  · rintro ⟨m, hm, hvalid⟩
    obtain ⟨hfsteq, hsndperm⟩ := generateMappings_sound _ _ _ [] m hlen_d hm
    rw [List.map_nil, List.nil_append] at hfsteq
    rw [List.map_nil, List.nil_append] at hsndperm
    have hkeysperm : (m.map Prod.fst).Perm g1.vertices := by
      rw [hfsteq]; exact hpart1
    have hkeysnodup : (m.map Prod.fst).Nodup := hkeysperm.symm.nodup hwf1.1
    have hvalsperm : (m.map Prod.snd).Perm g2.vertices := hsndperm.trans hpart2
    have hlookm : ∀ u ∈ g1.vertices, m.lookup u = some (mapFun m u) := by
      intro u hu
      apply lookup_eq_mapFun
      rw [lookup_isSome_iff]
      exact hkeysperm.mem_iff.mpr hu
    have hpperm : (g1.vertices.map (mapFun m)).Perm g2.vertices := by
      have h1 : (g1.vertices.map (mapFun m)).Perm ((m.map Prod.fst).map (mapFun m)) :=
        (hkeysperm.symm).map (mapFun m)
      rw [← map_snd_eq_map_mapFun m hkeysnodup] at h1
      exact h1.trans hvalsperm
    refine ⟨g1.vertices.map (mapFun m), (mem_permute_iff _ _).mpr hpperm, ?_⟩
    have hlookeq : ∀ u ∈ g1.vertices,
        (g1.vertices.zip (g1.vertices.map (mapFun m))).lookup u = m.lookup u := by
      intro u hu
      rw [zip_map_self, lookup_map_pair, if_pos hu, hlookm u hu]
    rw [isValidMapping_ext g1 g2 _ m hlookeq]
    exact hvalid
  · rintro ⟨p, hp, hvalid⟩
    have hpperm := (mem_permute_iff _ _).mp hp
    obtain ⟨hmap, hlook⟩ := zip_candidate_facts g1 g2 p hwf1.1 hpperm hlen
    have hpnodup : p.Nodup := hpperm.symm.nodup hwf2.1
    have hmnodup : (g1.vertices.map (mapFun (g1.vertices.zip p))).Nodup := by
      rw [hmap]; exact hpnodup
    have hinj := List.inj_on_of_nodup_map hmnodup
    have himg : (g1.vertices.map (mapFun (g1.vertices.zip p))).Perm g2.vertices := by
      rw [hmap]; exact hpperm
    obtain ⟨hmem2, hadj⟩ := valid_zip_facts g1 g2 p hwf1.1 hpperm hlen hvalid
    have hdeg := valid_degree_preserved g1 g2 (mapFun (g1.vertices.zip p))
      hwf1 hwf2 hna1 hna2 himg hadj
    have hgroups : ∀ d ∈ (buildDegreeGroups g1).map Prod.fst,
        (((buildDegreeGroups g1).lookup d).getD []).map (mapFun (g1.vertices.zip p)) ∈
          permute (((buildDegreeGroups g2).lookup d).getD []) := by
      intro d hd
      rw [mem_permute_iff]
      have hfilter1 := buildDegreeGroups_getD g1 d
      have hfilter2 := buildDegreeGroups_getD g2 d
      have hsub : ∀ x ∈ (((buildDegreeGroups g1).lookup d).getD []).map
          (mapFun (g1.vertices.zip p)), x ∈ ((buildDegreeGroups g2).lookup d).getD [] := by
        intro x hx
        rcases List.mem_map.mp hx with ⟨u, hu, hux⟩
        rw [hfilter1] at hu
        rcases List.mem_filter.mp hu with ⟨hu1, hu2⟩
        rw [hfilter2]
        apply List.mem_filter.mpr
        refine ⟨hux ▸ hmem2 u hu1, ?_⟩
        rw [← hux, beq_iff_eq, hdeg u hu1]
        exact beq_iff_eq.mp hu2
      have hnd : ((((buildDegreeGroups g1).lookup d).getD []).map
          (mapFun (g1.vertices.zip p))).Nodup := by
        rw [hfilter1]
        apply List.Nodup.map_on
        · intro x hx y hy hxy
          exact hinj (List.mem_filter.mp hx).1 (List.mem_filter.mp hy).1 hxy
        · exact List.Nodup.filter _ hwf1.1
      have hlen2 : (((buildDegreeGroups g2).lookup d).getD []).length ≤
          ((((buildDegreeGroups g1).lookup d).getD []).map
            (mapFun (g1.vertices.zip p))).length := by
        rw [List.length_map]
        exact le_of_eq (hlen_d d hd)
      exact (List.subperm_of_subset hnd hsub).perm_of_length_le hlen2
    have hmem := generateMappings_complete (buildDegreeGroups g1) (buildDegreeGroups g2)
      ((buildDegreeGroups g1).map Prod.fst) [] (mapFun (g1.vertices.zip p)) hgroups
    rw [List.nil_append] at hmem
    refine ⟨_, hmem, ?_⟩
    have hflat : (((buildDegreeGroups g1).map Prod.fst).flatMap fun d =>
        (((buildDegreeGroups g1).lookup d).getD []).map fun v =>
          (v, mapFun (g1.vertices.zip p) v)) =
        (((buildDegreeGroups g1).map Prod.fst).flatMap fun d =>
          ((buildDegreeGroups g1).lookup d).getD []).map fun v =>
          (v, mapFun (g1.vertices.zip p) v) := by
      rw [List.map_flatMap]
    have hlookeq : ∀ u ∈ g1.vertices,
        ((((buildDegreeGroups g1).map Prod.fst).flatMap fun d =>
          (((buildDegreeGroups g1).lookup d).getD []).map fun v =>
            (v, mapFun (g1.vertices.zip p) v)).lookup u) =
          (g1.vertices.zip p).lookup u := by
      intro u hu
      rw [hflat, lookup_map_pair, if_pos (hpart1.mem_iff.mpr hu), hlook u hu]
    rw [isValidMapping_ext g1 g2 _ (g1.vertices.zip p) hlookeq]
    exact hvalid

-- ## Symmetry of the brute-force witness

theorem exists_brute_symm (g1 g2 : Graph)
    (hnd1 : g1.vertices.Nodup) (hnd2 : g2.vertices.Nodup)
    (hlen : g1.vertices.length = g2.vertices.length)
    (h : ExistsBruteWitness g1 g2) : ExistsBruteWitness g2 g1 := by
  obtain ⟨p, hp, hvalid⟩ := h
  have hpperm := (mem_permute_iff _ _).mp hp
  obtain ⟨hmap, hlook⟩ := zip_candidate_facts g1 g2 p hnd1 hpperm hlen
  have hpnodup : p.Nodup := hpperm.symm.nodup hnd2
  have hinv_list : p.zip g1.vertices =
      g1.vertices.map fun v => (mapFun (g1.vertices.zip p) v, v) := by
    conv_lhs => rw [← hmap]
    have h2 := List.zip_map' (mapFun (g1.vertices.zip p)) id g1.vertices
    rw [List.map_id] at h2
    exact h2
  have hinvkeys : ((p.zip g1.vertices).map Prod.fst).Nodup := by
    rw [hinv_list, List.map_map]
    have h3 : (Prod.fst ∘ fun v => (mapFun (g1.vertices.zip p) v, v)) =
        mapFun (g1.vertices.zip p) := rfl
    rw [h3, hmap]
    exact hpnodup
  have hginv_f : ∀ u ∈ g1.vertices,
      mapFun (p.zip g1.vertices) (mapFun (g1.vertices.zip p) u) = u := by
    intro u hu
    have hmem : (mapFun (g1.vertices.zip p) u, u) ∈ p.zip g1.vertices := by
      rw [hinv_list]
      exact List.mem_map_of_mem _ hu
    show ((p.zip g1.vertices).lookup (mapFun (g1.vertices.zip p) u)).getD 0 = u
    rw [nodup_keys_lookup _ _ _ hinvkeys hmem]
    rfl
  have hf_ginv : ∀ x ∈ g2.vertices,
      mapFun (g1.vertices.zip p) (mapFun (p.zip g1.vertices) x) = x ∧
      mapFun (p.zip g1.vertices) x ∈ g1.vertices := by
    intro x hx
    have hxp : x ∈ p := hpperm.mem_iff.mpr hx
    rw [← hmap] at hxp
    rcases List.mem_map.mp hxp with ⟨u, hu, hux⟩
    rw [← hux, hginv_f u hu]
    exact ⟨rfl, hu⟩
  have hq : (g2.vertices.map (mapFun (p.zip g1.vertices))).Perm g1.vertices := by
    have h1 : (g2.vertices.map (mapFun (p.zip g1.vertices))).Perm
        (p.map (mapFun (p.zip g1.vertices))) :=
      (hpperm.symm).map (mapFun (p.zip g1.vertices))
    have h3 : ∀ v ∈ g1.vertices,
        (mapFun (p.zip g1.vertices) ∘ mapFun (g1.vertices.zip p)) v = id v := by
      intro v hv
      exact hginv_f v hv
    have h4 : (g1.vertices.map (mapFun (g1.vertices.zip p))).map
        (mapFun (p.zip g1.vertices)) = g1.vertices := by
      rw [List.map_map, List.map_congr_left h3, List.map_id]
    have h2 : p.map (mapFun (p.zip g1.vertices)) = g1.vertices :=
      ((congrArg (List.map (mapFun (p.zip g1.vertices))) hmap).symm).trans h4
    rw [h2] at h1
    exact h1
  refine ⟨g2.vertices.map (mapFun (p.zip g1.vertices)),
    (mem_permute_iff _ _).mpr hq, ?_⟩
  rw [isValidMapping_iff]
  intro x hx y hy
  rw [zip_map_self, lookup_map_pair, lookup_map_pair, if_pos hx, if_pos hy,
    areAdjacentOpt_some]
  obtain ⟨hfx, hgx⟩ := hf_ginv x hx
  obtain ⟨hfy, hgy⟩ := hf_ginv y hy
  have hvv := (isValidMapping_iff g1 g2 _).mp hvalid
    (mapFun (p.zip g1.vertices) x) hgx (mapFun (p.zip g1.vertices) y) hgy
  rw [hlook _ hgx, hlook _ hgy, areAdjacentOpt_some, hfx, hfy] at hvv
  exact hvv.symm

-- ## Inversion of the success branch of each search

theorem detectIsomorphism_mapping_inv (g1 g2 : Graph) (mv : Nat) (m : List (Nat × Nat))
    (h : (detectIsomorphism g1 g2 mv).mapping = some m) :
    (checkInvariants g1 g2).isomorphismPossible = true ∧
    (∃ p ∈ permute g2.vertices, m = g1.vertices.zip p) ∧
    isValidMapping g1 g2 m = true := by
  by_cases hpass : (checkInvariants g1 g2).isomorphismPossible = true
  · by_cases hbig : g1.getVertexCount > mv
    · rw [detectIsomorphism_too_large g1 g2 mv hpass hbig] at h
      simp at h
    · unfold detectIsomorphism at h
      simp only [hpass] at h
      rw [if_neg (by simp), if_neg hbig] at h
      cases hsl : searchLoop g1 g2
          ((permute g2.vertices).map fun perm => g1.vertices.zip perm) 0 with
      | none =>
        rw [hsl] at h
        simp at h
      | some r =>
        obtain ⟨m2, k⟩ := r
        rw [hsl] at h
        simp at h
        subst h
        rcases searchLoop_some_mem g1 g2 _ 0 m2 k hsl with ⟨hmem, hvalid⟩
        rcases List.mem_map.mp hmem with ⟨p, hp, hpm⟩
        exact ⟨hpass, ⟨p, hp, hpm.symm⟩, hvalid⟩
  · have hf : (checkInvariants g1 g2).isomorphismPossible = false :=
      Bool.eq_false_iff.mpr hpass
    rw [detectIsomorphism_invariant_fail g1 g2 mv hf] at h
    simp at h

theorem detectIsomorphismOptimized_mapping_inv (g1 g2 : Graph) (mv : Nat)
    (m : List (Nat × Nat))
    (h : (detectIsomorphismOptimized g1 g2 mv).mapping = some m) :
    (checkInvariants g1 g2).isomorphismPossible = true ∧
    m ∈ generateMappings (buildDegreeGroups g1) (buildDegreeGroups g2)
      ((buildDegreeGroups g1).map Prod.fst) [] ∧
    isValidMapping g1 g2 m = true := by
  by_cases hpass : (checkInvariants g1 g2).isomorphismPossible = true
  · by_cases hbig : g1.getVertexCount > mv
    · rw [detectIsomorphismOptimized_too_large g1 g2 mv hpass hbig] at h
      simp at h
    · unfold detectIsomorphismOptimized at h
      simp only [hpass] at h
      rw [if_neg (by simp), if_neg hbig,
        if_neg (not_ne_iff.mpr (groups_length_eq_of_pass g1 g2 hpass))] at h
      cases hsl : searchLoop g1 g2 (generateMappings (buildDegreeGroups g1)
          (buildDegreeGroups g2) ((buildDegreeGroups g1).map fun q => q.1) []) 0 with
      | none =>
        rw [hsl] at h
        simp at h
      | some r =>
        obtain ⟨m2, k⟩ := r
        rw [hsl] at h
        simp at h
        subst h
        rcases searchLoop_some_mem g1 g2 _ 0 m2 k hsl with ⟨hmem, hvalid⟩
        exact ⟨hpass, hmem, hvalid⟩
  · have hf : (checkInvariants g1 g2).isomorphismPossible = false :=
      Bool.eq_false_iff.mpr hpass
    rw [detectIsomorphismOptimized_invariant_fail g1 g2 mv hf] at h
    simp at h

-- ## Bijectivity of a returned mapping

/-- Statement that a returned candidate mapping is a structure-preserving
bijection: its keys enumerate the vertices of `g1`, its values enumerate
the vertices of `g2` (so on duplicate-free vertex lists it is total,
injective and onto), and adjacency is preserved and reflected on every
ordered pair of vertices of `g1`. -/
def MappingOK (g1 g2 : Graph) (m : List (Nat × Nat)) : Prop :=
  (m.map Prod.fst).Perm g1.vertices ∧
  (m.map Prod.snd).Perm g2.vertices ∧
  ∀ u ∈ g1.vertices, ∀ v ∈ g1.vertices, ∃ x y,
    m.lookup u = some x ∧ m.lookup v = some y ∧
    g1.areAdjacent u v = g2.areAdjacent x y

theorem mapping_ok_of_perms_valid (g1 g2 : Graph) (m : List (Nat × Nat))
    (hfst : (m.map Prod.fst).Perm g1.vertices)
    (hsnd : (m.map Prod.snd).Perm g2.vertices)
    (hvalid : isValidMapping g1 g2 m = true) : MappingOK g1 g2 m := by
  refine ⟨hfst, hsnd, ?_⟩
  intro u hu v hv
  have hlu : (m.lookup u).isSome = true := by
    rw [lookup_isSome_iff]
    exact hfst.mem_iff.mpr hu
  have hlv : (m.lookup v).isSome = true := by
    rw [lookup_isSome_iff]
    exact hfst.mem_iff.mpr hv
  refine ⟨mapFun m u, mapFun m v, lookup_eq_mapFun m u hlu, lookup_eq_mapFun m v hlv, ?_⟩
  have h2 := (isValidMapping_iff g1 g2 _).mp hvalid u hu v hv
  rw [lookup_eq_mapFun m u hlu, lookup_eq_mapFun m v hlv, areAdjacentOpt_some] at h2
  exact h2

theorem opt_candidate_perms (g1 g2 : Graph) (m : List (Nat × Nat))
    (hpass : (checkInvariants g1 g2).isomorphismPossible = true)
    (hm : m ∈ generateMappings (buildDegreeGroups g1) (buildDegreeGroups g2)
      ((buildDegreeGroups g1).map Prod.fst) []) :
    (m.map Prod.fst).Perm g1.vertices ∧ (m.map Prod.snd).Perm g2.vertices := by
  have hknd := buildDegreeGroups_keys_nodup g1
  have hcov1 : ∀ v ∈ g1.vertices,
      g1.getDegree v ∈ (buildDegreeGroups g1).map Prod.fst := by
    intro v hv
    rw [mem_buildDegreeGroups_keys]
    exact List.mem_map_of_mem _ hv
  have hcov2 : ∀ v ∈ g2.vertices,
      g2.getDegree v ∈ (buildDegreeGroups g1).map Prod.fst := by
    intro v hv
    rw [mem_buildDegreeGroups_keys, ← List.count_pos_iff,
      degree_count_eq_of_pass g1 g2 hpass, List.count_pos_iff]
    exact List.mem_map_of_mem _ hv
  have hlen_d : ∀ d ∈ (buildDegreeGroups g1).map Prod.fst,
      (((buildDegreeGroups g2).lookup d).getD []).length =
      (((buildDegreeGroups g1).lookup d).getD []).length :=
    fun d _ => group_length_eq_of_pass g1 g2 hpass d
  obtain ⟨hfsteq, hsndperm⟩ := generateMappings_sound _ _ _ [] m hlen_d hm
  rw [List.map_nil, List.nil_append] at hfsteq
  rw [List.map_nil, List.nil_append] at hsndperm
  constructor
  · rw [hfsteq]
    exact flatMap_groups_perm g1 _ hknd hcov1
  · exact hsndperm.trans (flatMap_groups_perm g2 _ hknd hcov2)

-- ## Effects of addVertex and addEdge on the components of a graph

theorem addVertex_isDirected (g : Graph) (v : Nat) :
    (g.addVertex v).isDirected = g.isDirected := by
  unfold Graph.addVertex
  by_cases h : v ∈ g.vertices <;> simp [h]

theorem addVertex_edges (g : Graph) (v : Nat) :
    (g.addVertex v).edges = g.edges := by
  unfold Graph.addVertex
  by_cases h : v ∈ g.vertices <;> simp [h]

theorem mem_addVertex_vertices (g : Graph) (v u : Nat) :
    u ∈ (g.addVertex v).vertices ↔ u ∈ g.vertices ∨ u = v := by
  unfold Graph.addVertex
  by_cases h : v ∈ g.vertices
  · rw [if_pos h]
    constructor
    · exact fun h2 => Or.inl h2
    · rintro (h2 | h2)
      · exact h2
      · exact h2 ▸ h
  · rw [if_neg h]
    simp

theorem getNeighbors_addVertex (g : Graph) (v u : Nat) :
    (g.addVertex v).getNeighbors u = g.getNeighbors u := by
  unfold Graph.addVertex Graph.getNeighbors
  by_cases h : v ∈ g.vertices
  · rw [if_pos h]
  · rw [if_neg h]
    simp only
    rw [lookup_append]
    cases hl : g.adjacencyList.lookup u with
    | some l => simp
    | none =>
      rw [List.lookup_cons]
      by_cases huv : u = v
      · subst huv
        rw [show (u == u) = true from beq_self_eq_true u]
        rfl
      · rw [show (u == v) = false from beq_eq_false_iff_ne.mpr huv]
        simp [List.lookup]

theorem addVertex_WF (g : Graph) (v : Nat) (h : g.WF) : (g.addVertex v).WF := by
  unfold Graph.addVertex
  by_cases hv : v ∈ g.vertices
  · rw [if_pos hv]
    exact h
  · rw [if_neg hv]
    obtain ⟨h1, h2, h3, h4⟩ := h
    refine ⟨?_, ?_, ?_, ?_⟩
    · show (g.vertices ++ [v]).Nodup
      rw [List.nodup_append]
      refine ⟨h1, by simp, ?_⟩
      intro a ha hb
      rw [List.mem_singleton] at hb
      subst hb
      exact hv ha
    · show (g.adjacencyList ++ [(v, [])]).map Prod.fst = g.vertices ++ [v]
      rw [List.map_append, h2]
      rfl
    · intro q hq u hu
      rcases List.mem_append.mp hq with hq1 | hq1
      · exact List.mem_append.mpr (Or.inl (h3 q hq1 u hu))
      · rw [List.mem_singleton] at hq1
        subst hq1
        simp at hu
    · intro e he
      have h5 := h4 e he
      exact ⟨List.mem_append.mpr (Or.inl h5.1), List.mem_append.mpr (Or.inl h5.2)⟩

theorem mem_adjAppend (al : List (Nat × List Nat)) (k v : Nat) (q : Nat × List Nat)
    (hq : q ∈ adjAppend al k v) :
    ∃ q0 ∈ al, q.1 = q0.1 ∧ (q.2 = q0.2 ∨ q.2 = q0.2 ++ [v]) := by
  unfold adjAppend at hq
  rcases List.mem_map.mp hq with ⟨q0, hq0, hqq⟩
  by_cases hk : q0.1 = k
  · simp only [if_pos hk] at hqq
    subst hqq
    exact ⟨q0, hq0, rfl, Or.inr rfl⟩
  · simp only [if_neg hk] at hqq
    subst hqq
    exact ⟨q0, hq0, rfl, Or.inl rfl⟩

theorem record_adjAppend_WF (g : Graph) (k v : Nat) (h : g.WF) (hv : v ∈ g.vertices) :
    ({ g with adjacencyList := adjAppend g.adjacencyList k v } : Graph).WF := by
  obtain ⟨h1, h2, h3, h4⟩ := h
  refine ⟨h1, ?_, ?_, h4⟩
  · show (adjAppend g.adjacencyList k v).map Prod.fst = g.vertices
    rw [adjAppend_keys]
    exact h2
  · intro q hq u hu
    rcases mem_adjAppend _ _ _ q hq with ⟨q0, hq0, _, hor⟩
    rcases hor with h5 | h5
    · exact h3 q0 hq0 u (h5 ▸ hu)
    · rw [h5] at hu
      rcases List.mem_append.mp hu with hu1 | hu1
      · exact h3 q0 hq0 u hu1
      · rw [List.mem_singleton] at hu1
        subst hu1
        exact hv

theorem record_edges_WF (g : Graph) (v1 v2 : Nat) (h : g.WF)
    (h1 : v1 ∈ g.vertices) (h2 : v2 ∈ g.vertices) :
    ({ g with edges := g.edges ++ [(v1, v2)] } : Graph).WF := by
  obtain ⟨hw1, hw2, hw3, hw4⟩ := h
  refine ⟨hw1, hw2, hw3, ?_⟩
  intro e he
  rcases List.mem_append.mp he with he1 | he1
  · exact hw4 e he1
  · rw [List.mem_singleton] at he1
    subst he1
    exact ⟨h1, h2⟩

theorem addEdge_WF (g : Graph) (v1 v2 : Nat) (h : g.WF) : (g.addEdge v1 v2).WF := by
  have hwv : ((g.addVertex v1).addVertex v2).WF := addVertex_WF _ _ (addVertex_WF _ _ h)
  have hm1 : v1 ∈ ((g.addVertex v1).addVertex v2).vertices := by
    rw [mem_addVertex_vertices]
    exact Or.inl ((mem_addVertex_vertices _ _ _).mpr (Or.inr rfl))
  have hm2 : v2 ∈ ((g.addVertex v1).addVertex v2).vertices := by
    rw [mem_addVertex_vertices]
    exact Or.inr rfl
  have hmid := record_edges_WF
    ({ (g.addVertex v1).addVertex v2 with
        adjacencyList := adjAppend ((g.addVertex v1).addVertex v2).adjacencyList v1 v2 })
    v1 v2 (record_adjAppend_WF _ v1 v2 hwv hm2) hm1 hm2
  simp only [Graph.addEdge]
  split
  · exact record_adjAppend_WF _ v2 v1 hmid hm1
  · exact hmid

theorem addEdge_isDirected (g : Graph) (v1 v2 : Nat) :
    (g.addEdge v1 v2).isDirected = g.isDirected := by
  simp only [Graph.addEdge]
  split
  · show ((g.addVertex v1).addVertex v2).isDirected = g.isDirected
    rw [addVertex_isDirected, addVertex_isDirected]
  · show ((g.addVertex v1).addVertex v2).isDirected = g.isDirected
    rw [addVertex_isDirected, addVertex_isDirected]

theorem addEdge_edges (g : Graph) (v1 v2 : Nat) :
    (g.addEdge v1 v2).edges = g.edges ++ [(v1, v2)] := by
  simp only [Graph.addEdge]
  split
  · show ((g.addVertex v1).addVertex v2).edges ++ [(v1, v2)] = g.edges ++ [(v1, v2)]
    rw [addVertex_edges, addVertex_edges]
  · show ((g.addVertex v1).addVertex v2).edges ++ [(v1, v2)] = g.edges ++ [(v1, v2)]
    rw [addVertex_edges, addVertex_edges]

theorem adjAppend_lookup_isSome (al : List (Nat × List Nat)) (k v u : Nat) :
    ((adjAppend al k v).lookup u).isSome = true ↔ (al.lookup u).isSome = true := by
  rw [lookup_isSome_iff, lookup_isSome_iff, adjAppend_keys]

theorem getD_adjAppend (al : List (Nat × List Nat)) (k v u : Nat)
    (hk : (al.lookup k).isSome = true) :
    ((adjAppend al k v).lookup u).getD [] =
      if u = k then (al.lookup u).getD [] ++ [v] else (al.lookup u).getD [] := by
  rw [adjAppend_lookup]
  by_cases h : u = k
  · rw [if_pos h, if_pos h, h]
    cases hl : al.lookup k with
    | none => rw [hl] at hk; simp at hk
    | some l => rfl
  · rw [if_neg h, if_neg h]

theorem mem_addEdge_getNeighbors_undirected (g : Graph) (v1 v2 : Nat)
    (hwf : g.WF) (hdir : g.isDirected = false) (u x : Nat) :
    x ∈ (g.addEdge v1 v2).getNeighbors u ↔
      x ∈ g.getNeighbors u ∨ (u = v1 ∧ x = v2) ∨ (u = v2 ∧ x = v1) := by
  have hwv : ((g.addVertex v1).addVertex v2).WF := addVertex_WF _ _ (addVertex_WF _ _ hwf)
  have hm1 : v1 ∈ ((g.addVertex v1).addVertex v2).vertices := by
    rw [mem_addVertex_vertices]
    exact Or.inl ((mem_addVertex_vertices _ _ _).mpr (Or.inr rfl))
  have hm2 : v2 ∈ ((g.addVertex v1).addVertex v2).vertices := by
    rw [mem_addVertex_vertices]
    exact Or.inr rfl
  have hk1 : (((g.addVertex v1).addVertex v2).adjacencyList.lookup v1).isSome = true := by
    rw [lookup_isSome_iff, hwv.2.1]
    exact hm1
  have hk2 : (((g.addVertex v1).addVertex v2).adjacencyList.lookup v2).isSome = true := by
    rw [lookup_isSome_iff, hwv.2.1]
    exact hm2
  have hkA : ((adjAppend ((g.addVertex v1).addVertex v2).adjacencyList v1 v2).lookup
      v2).isSome = true :=
    (adjAppend_lookup_isSome _ _ _ _).mpr hk2
  have hNg : ∀ y, ((((g.addVertex v1).addVertex v2).adjacencyList.lookup y).getD []) =
      g.getNeighbors y := by
    intro y
    have h3 : ((g.addVertex v1).addVertex v2).getNeighbors y = g.getNeighbors y := by
      rw [getNeighbors_addVertex, getNeighbors_addVertex]
    exact h3
  have hdirv : (!((g.addVertex v1).addVertex v2).isDirected) = true := by
    rw [addVertex_isDirected, addVertex_isDirected, hdir]
    rfl
  have hgoal : (g.addEdge v1 v2).getNeighbors u =
      ((adjAppend (adjAppend ((g.addVertex v1).addVertex v2).adjacencyList v1 v2) v2
        v1).lookup u).getD [] := by
    simp only [Graph.addEdge]
    rw [if_pos hdirv]
    rfl
  rw [hgoal, getD_adjAppend _ _ _ _ hkA, getD_adjAppend _ _ _ _ hk1, hNg]
  by_cases h1 : u = v1
  · by_cases h2 : u = v2
    · have hv : v1 = v2 := by rw [← h1, h2]
      subst hv
      simp [h1, List.mem_append]
    · simp [h1, h2, show ¬v1 = v2 from fun he => h2 (h1.trans he),
        List.mem_append]
  · by_cases h2 : u = v2
    · simp [h1, h2, show ¬v2 = v1 from fun he => h1 (h2.trans he),
        List.mem_append]
    · simp [h1, h2]

-- ## Symmetry invariants of undirected graphs

/-- Statement that the stored adjacency is symmetric. -/
def SymAdjacency (g : Graph) : Prop :=
  ∀ u v : Nat, v ∈ g.getNeighbors u → u ∈ g.getNeighbors v

/-- Statement that both directions of every recorded edge are stored. -/
def EdgesRecorded (g : Graph) : Prop :=
  ∀ e ∈ g.edges, e.2 ∈ g.getNeighbors e.1 ∧ e.1 ∈ g.getNeighbors e.2

/-- Predicate for the graphs reachable from `new Graph(b)` through any
sequence of `addVertex` and `addEdge` calls. -/
inductive BuiltFrom (b : Bool) : Graph → Prop
  | empty : BuiltFrom b (Graph.empty b)
  | addVertex (g : Graph) (v : Nat) : BuiltFrom b g → BuiltFrom b (g.addVertex v)
  | addEdge (g : Graph) (u v : Nat) : BuiltFrom b g → BuiltFrom b (g.addEdge u v)

theorem builtFrom_isDirected (b : Bool) (g : Graph) (h : BuiltFrom b g) :
    g.isDirected = b := by
  induction h with
  | empty => rfl
  | addVertex g v _ ih => rw [addVertex_isDirected]; exact ih
  | addEdge g u v _ ih => rw [addEdge_isDirected]; exact ih

theorem builtFrom_WF (b : Bool) (g : Graph) (h : BuiltFrom b g) : g.WF := by
  induction h with
  | empty =>
    refine ⟨by simp [Graph.empty], by simp [Graph.empty], ?_, ?_⟩
    · intro q hq
      simp [Graph.empty] at hq
    · intro e he
      simp [Graph.empty] at he
  | addVertex g v _ ih => exact addVertex_WF g v ih
  | addEdge g u v _ ih => exact addEdge_WF g u v ih

theorem builtFrom_undirected_sym (g : Graph) (h : BuiltFrom false g) :
    SymAdjacency g ∧ EdgesRecorded g := by
  induction h with
  | empty =>
    constructor
    · intro u v hv
      simp [Graph.empty, Graph.getNeighbors, List.lookup] at hv
    · intro e he
      simp [Graph.empty] at he
  | addVertex g v _ ih =>
    obtain ⟨ih1, ih2⟩ := ih
    constructor
    · intro a c hc
      rw [getNeighbors_addVertex] at hc ⊢
      exact ih1 a c hc
    · intro e he
      rw [addVertex_edges] at he
      rw [getNeighbors_addVertex, getNeighbors_addVertex]
      exact ih2 e he
  | addEdge g u v hb ih =>
    obtain ⟨ih1, ih2⟩ := ih
    have hwf := builtFrom_WF false g hb
    have hdir := builtFrom_isDirected false g hb
    constructor
    · intro a c hc
      rw [mem_addEdge_getNeighbors_undirected g u v hwf hdir] at hc ⊢
      rcases hc with hc | ⟨hc1, hc2⟩ | ⟨hc1, hc2⟩
      · exact Or.inl (ih1 a c hc)
      · exact Or.inr (Or.inr ⟨hc2, hc1⟩)
      · exact Or.inr (Or.inl ⟨hc2, hc1⟩)
    · intro e he
      rw [addEdge_edges] at he
      rw [mem_addEdge_getNeighbors_undirected g u v hwf hdir,
        mem_addEdge_getNeighbors_undirected g u v hwf hdir]
      rcases List.mem_append.mp he with he1 | he1
      · have h3 := ih2 e he1
        exact ⟨Or.inl h3.1, Or.inl h3.2⟩
      · rw [List.mem_singleton] at he1
        subst he1
        exact ⟨Or.inr (Or.inl ⟨rfl, rfl⟩), Or.inr (Or.inr ⟨rfl, rfl⟩)⟩

-- ## State-passing embedding of the search entry points
--
-- The JS search functions receive two heap objects. To settle the claim
-- that they never mutate them, the same algorithms are written below in a
-- state-passing form in which every access to either graph object goes
-- through an explicit method invocation on the tracked state; the only
-- methods the source invokes are reads (`getVertexCount`, `getEdgeCount`,
-- `getDegreeSequence`, `getDegree`, `areAdjacent`, the `vertices` set and
-- the degree-grouping scan), never `addVertex` or `addEdge`.

/-- Computation over the pair of graph objects a search call receives. -/
def GraphPairM (α : Type) : Type := (Graph × Graph) → α × (Graph × Graph)

instance : Monad GraphPairM where
  pure a := fun s => (a, s)
  bind x f := fun s => f (x s).1 (x s).2

/-- Invocation of a read-only method on the first graph object. -/
def readG1 {α : Type} (f : Graph → α) : GraphPairM α := fun s => (f s.1, s)

/-- Invocation of a read-only method on the second graph object. -/
def readG2 {α : Type} (f : Graph → α) : GraphPairM α := fun s => (f s.2, s)

/-- Statement that a computation leaves both graph objects untouched. -/
def PreservesState {α : Type} (x : GraphPairM α) : Prop := ∀ s, (x s).2 = s

theorem preserves_pure {α : Type} (a : α) : PreservesState (pure a : GraphPairM α) :=
  fun _ => rfl

theorem preserves_bind {α β : Type} (x : GraphPairM α) (f : α → GraphPairM β)
    (hx : PreservesState x) (hf : ∀ a, PreservesState (f a)) :
    PreservesState (x >>= f) := by
  intro s
  show ((f (x s).1) ((x s).2)).2 = s
  rw [hx s]
  exact hf (x s).1 s

theorem preserves_readG1 {α : Type} (f : Graph → α) : PreservesState (readG1 f) :=
  fun _ => rfl

theorem preserves_readG2 {α : Type} (f : Graph → α) : PreservesState (readG2 f) :=
  fun _ => rfl

/-- State-passing version of `checkInvariants`. -/
def checkInvariantsM : GraphPairM InvariantResult := do
  let vc1 ← readG1 Graph.getVertexCount
  let vc2 ← readG2 Graph.getVertexCount
  let ec1 ← readG1 Graph.getEdgeCount
  let ec2 ← readG2 Graph.getEdgeCount
  let ds1 ← readG1 Graph.getDegreeSequence
  let ds2 ← readG2 Graph.getDegreeSequence
  pure { isomorphismPossible := (vc1 == vc2) && (ec1 == ec2) && (ds1 == ds2),
         checks := { vertexCount := vc1 == vc2, edgeCount := ec1 == ec2,
                     degreeSequence := ds1 == ds2 },
         detailsG1 := { vertices := vc1, edges := ec1, degrees := ds1 },
         detailsG2 := { vertices := vc2, edges := ec2, degrees := ds2 } }

theorem preserves_checkInvariantsM : PreservesState checkInvariantsM :=
  fun _ => rfl

/-- State-passing version of one adjacency comparison of `isValidMapping`. -/
def pairCheckM (mapping : List (Nat × Nat)) (v1 v2 : Nat) : GraphPairM Bool := do
  let adjacent1 ← readG1 fun g => g.areAdjacent v1 v2
  let adjacent2 ← readG2 fun g => areAdjacentOpt g (mapping.lookup v1) (mapping.lookup v2)
  pure (adjacent1 == adjacent2)

theorem preserves_pairCheckM (mapping : List (Nat × Nat)) (v1 v2 : Nat) :
    PreservesState (pairCheckM mapping v1 v2) :=
  fun _ => rfl

/-- Short-circuiting conjunction loop over a list, in the state monad. -/
def listAllM {α : Type} (f : α → GraphPairM Bool) : List α → GraphPairM Bool
  | [] => pure true
  | a :: l => do
    let b ← f a
    if b then listAllM f l else pure false

theorem preserves_listAllM {α : Type} (f : α → GraphPairM Bool)
    (hf : ∀ a, PreservesState (f a)) (l : List α) : PreservesState (listAllM f l) := by
  induction l with
  | nil => exact preserves_pure true
  | cons a l ih =>
    intro s
    show ((if (f a s).1 = true then listAllM f l else pure false) ((f a s).2)).2 = s
    rw [hf a s]
    by_cases hb : (f a s).1 = true
    · rw [if_pos hb]
      exact ih s
    · rw [if_neg hb]
      rfl

/-- State-passing version of `isValidMapping`. -/
def isValidMappingM (mapping : List (Nat × Nat)) : GraphPairM Bool := do
  let vertices1 ← readG1 Graph.vertices
  listAllM (fun v1 => listAllM (fun v2 => pairCheckM mapping v1 v2) vertices1) vertices1

theorem preserves_isValidMappingM (mapping : List (Nat × Nat)) :
    PreservesState (isValidMappingM mapping) := by
  apply preserves_bind _ _ (preserves_readG1 _)
  intro vertices1
  exact preserves_listAllM _
    (fun v1 => preserves_listAllM _ (fun v2 => preserves_pairCheckM mapping v1 v2) _) _

/-- State-passing version of the candidate loop. -/
def searchLoopM : List (List (Nat × Nat)) → Nat → GraphPairM (Option (List (Nat × Nat) × Nat))
  | [], _ => pure none
  | m :: rest, checked => do
    let ok ← isValidMappingM m
    if ok then pure (some (m, checked + 1)) else searchLoopM rest (checked + 1)

theorem preserves_searchLoopM (cands : List (List (Nat × Nat))) :
    ∀ c : Nat, PreservesState (searchLoopM cands c) := by
  induction cands with
  | nil => intro c; exact preserves_pure none
  | cons m rest ih =>
    intro c s
    show ((if (isValidMappingM m s).1 = true then pure (some (m, c + 1))
      else searchLoopM rest (c + 1)) ((isValidMappingM m s).2)).2 = s
    rw [preserves_isValidMappingM m s]
    by_cases hb : (isValidMappingM m s).1 = true
    · rw [if_pos hb]
      rfl
    · rw [if_neg hb]
      exact ih (c + 1) s

/-- State-passing version of `detectIsomorphism`. -/
def detectIsomorphismM (maxVertices : Nat := 10) : GraphPairM SearchResult := do
  let invariantCheck ← checkInvariantsM
  if !invariantCheck.isomorphismPossible then
    pure { isIsomorphic := some false, reason := some "Invariants do not match",
           invariantCheck := invariantCheck, mapping := none,
           permutationsChecked := none, optimized := none }
  else
    let n ← readG1 Graph.getVertexCount
    if n > maxVertices then
      pure { isIsomorphic := none, reason := some (tooLargeReasonBrute n maxVertices),
             invariantCheck := invariantCheck, mapping := none,
             permutationsChecked := none, optimized := none }
    else
      let vertices1 ← readG1 Graph.vertices
      let vertices2 ← readG2 Graph.vertices
      let permutations := permute vertices2
      let r ← searchLoopM (permutations.map fun perm => vertices1.zip perm) 0
      match r with
      | some (m, k) =>
        pure { isIsomorphic := some true, reason := none,
               invariantCheck := invariantCheck, mapping := some m,
               permutationsChecked := some k, optimized := none }
      | none =>
        pure { isIsomorphic := some false,
               reason := some "No valid mapping found after checking all permutations",
               invariantCheck := invariantCheck, mapping := none,
               permutationsChecked := some permutations.length, optimized := none }

/-- State-passing version of `detectIsomorphismOptimized`. -/
def detectIsomorphismOptimizedM (maxVertices : Nat := 12) : GraphPairM SearchResult := do
  let invariantCheck ← checkInvariantsM
  if !invariantCheck.isomorphismPossible then
    pure { isIsomorphic := some false, reason := some "Invariants do not match",
           invariantCheck := invariantCheck, mapping := none,
           permutationsChecked := none, optimized := none }
  else
    let n ← readG1 Graph.getVertexCount
    if n > maxVertices then
      pure { isIsomorphic := none, reason := some (tooLargeReasonOpt n maxVertices),
             invariantCheck := invariantCheck, mapping := none,
             permutationsChecked := none, optimized := none }
    else
      let degreeGroups1 ← readG1 buildDegreeGroups
      let degreeGroups2 ← readG2 buildDegreeGroups
      if degreeGroups1.length ≠ degreeGroups2.length then
        pure { isIsomorphic := some false,
               reason := some "Different number of degree groups",
               invariantCheck := invariantCheck, mapping := none,
               permutationsChecked := none, optimized := none }
      else
        let degrees := degreeGroups1.map fun q => q.1
        let r ← searchLoopM (generateMappings degreeGroups1 degreeGroups2 degrees []) 0
        match r with
        | some (m, k) =>
          pure { isIsomorphic := some true, reason := none,
                 invariantCheck := invariantCheck, mapping := some m,
                 permutationsChecked := some k, optimized := some true }
        | none =>
          pure { isIsomorphic := some false, reason := some "No valid mapping found",
                 invariantCheck := invariantCheck, mapping := none,
                 permutationsChecked := some (generateMappings degreeGroups1
                   degreeGroups2 degrees []).length, optimized := some true }

theorem preserves_detectIsomorphismM (maxVertices : Nat) :
    PreservesState (detectIsomorphismM maxVertices) := by
  apply preserves_bind _ _ preserves_checkInvariantsM
  intro ic
  by_cases h1 : (!ic.isomorphismPossible) = true
  · rw [if_pos h1]
    exact preserves_pure _
  · rw [if_neg h1]
    apply preserves_bind _ _ (preserves_readG1 _)
    intro n
    by_cases h2 : n > maxVertices
    · rw [if_pos h2]
      exact preserves_pure _
    · rw [if_neg h2]
      apply preserves_bind _ _ (preserves_readG1 _)
      intro vertices1
      apply preserves_bind _ _ (preserves_readG2 _)
      intro vertices2
      apply preserves_bind _ _ (preserves_searchLoopM _ 0)
      intro r
      cases r with
      | none => exact preserves_pure _
      | some r2 =>
        obtain ⟨m, k⟩ := r2
        exact preserves_pure _

theorem preserves_detectIsomorphismOptimizedM (maxVertices : Nat) :
    PreservesState (detectIsomorphismOptimizedM maxVertices) := by
  apply preserves_bind _ _ preserves_checkInvariantsM
  intro ic
  by_cases h1 : (!ic.isomorphismPossible) = true
  · rw [if_pos h1]
    exact preserves_pure _
  · rw [if_neg h1]
    apply preserves_bind _ _ (preserves_readG1 _)
    intro n
    by_cases h2 : n > maxVertices
    · rw [if_pos h2]
      exact preserves_pure _
    · rw [if_neg h2]
      apply preserves_bind _ _ (preserves_readG1 _)
      intro degreeGroups1
      apply preserves_bind _ _ (preserves_readG2 _)
      intro degreeGroups2
      by_cases h3 : degreeGroups1.length ≠ degreeGroups2.length
      · rw [if_pos h3]
        exact preserves_pure _
      · rw [if_neg h3]
        apply preserves_bind _ _ (preserves_searchLoopM _ 0)
        intro r
        cases r with
        | none => exact preserves_pure _
        | some r2 =>
          obtain ⟨m, k⟩ := r2
          exact preserves_pure _

-- The state-passing versions compute the same results as the direct
-- embeddings on the concrete scenarios used elsewhere in this file.

example : (detectIsomorphismM 10 (triangleA, triangleB)).1 =
    detectIsomorphism triangleA triangleB 10 := by decide

example : (detectIsomorphismOptimizedM 12 (pathThree, triangleA)).1 =
    detectIsomorphismOptimized pathThree triangleA 12 := by decide

-- ## Claim theorems

/-- C1: whenever `detectIsomorphism` or `detectIsomorphismOptimized`
returns an Isomorphic result carrying a mapping `m`, then `m` is a
bijection from the vertex set of the first graph onto the vertex set of
the second graph (its keys enumerate the first vertex set and its values
enumerate the second), and for every ordered pair of vertices `(u, v)` of
the first graph, including `u = v`, `areAdjacent` in the first graph of
`(u, v)` equals `areAdjacent` in the second graph of the mapped pair. -/
theorem claim_mapping_is_isomorphism (g1 g2 : Graph) (mv : Nat) :
    (∀ m, (detectIsomorphism g1 g2 mv).mapping = some m → MappingOK g1 g2 m) ∧
    (∀ m, (detectIsomorphismOptimized g1 g2 mv).mapping = some m → MappingOK g1 g2 m) := by
  constructor
  · intro m hm
    obtain ⟨hpass, ⟨p, hp, hpm⟩, hvalid⟩ := detectIsomorphism_mapping_inv g1 g2 mv m hm
    subst hpm
    have hpperm := (mem_permute_iff _ _).mp hp
    have hlen : g1.vertices.length = g2.vertices.length :=
      ((invariant_pass_iff g1 g2).mp hpass).1
    have hlp : g1.vertices.length = p.length := by
      rw [hpperm.length_eq]
      exact hlen
    apply mapping_ok_of_perms_valid
    · rw [List.map_fst_zip _ _ (le_of_eq hlp)]
    · rw [List.map_snd_zip _ _ (le_of_eq hlp.symm)]
      exact hpperm
    · exact hvalid
  · intro m hm
    obtain ⟨hpass, hmem, hvalid⟩ := detectIsomorphismOptimized_mapping_inv g1 g2 mv m hm
    obtain ⟨hfst, hsnd⟩ := opt_candidate_perms g1 g2 m hpass hmem
    exact mapping_ok_of_perms_valid g1 g2 m hfst hsnd hvalid

/-- Witness for C1 at the two concrete triangles. -/
theorem claim_mapping_is_isomorphism_witness :
    MappingOK triangleA triangleB [(1, 4), (2, 5), (3, 6)] :=
  (claim_mapping_is_isomorphism triangleA triangleB 10).1 [(1, 4), (2, 5), (3, 6)]
    (by decide)

/-- C2: when the invariant check reports `possible = false`, both search
functions return the immediate NotIsomorphic short-circuit record of their
first branch: no permutation is enumerated, the mapping is absent, and the
count of checked permutations is zero (the JS result object carries no
`permutationsChecked` field at all, modelled by `none`). -/
theorem claim_invariant_failure_short_circuit (g1 g2 : Graph) (mv1 mv2 : Nat)
    (h : (checkInvariants g1 g2).isomorphismPossible = false) :
    detectIsomorphism g1 g2 mv1 =
      { isIsomorphic := some false, reason := some "Invariants do not match",
        invariantCheck := checkInvariants g1 g2, mapping := none,
        permutationsChecked := none, optimized := none } ∧
    detectIsomorphismOptimized g1 g2 mv2 =
      { isIsomorphic := some false, reason := some "Invariants do not match",
        invariantCheck := checkInvariants g1 g2, mapping := none,
        permutationsChecked := none, optimized := none } ∧
    (detectIsomorphism g1 g2 mv1).permutationsChecked.getD 0 = 0 ∧
    (detectIsomorphismOptimized g1 g2 mv2).permutationsChecked.getD 0 = 0 := by
  have h1 := detectIsomorphism_invariant_fail g1 g2 mv1 h
  have h2 := detectIsomorphismOptimized_invariant_fail g1 g2 mv2 h
  rw [h1, h2]
  exact ⟨rfl, rfl, rfl, rfl⟩

/-- Witness for C2 on a path against a triangle (edge counts differ). -/
theorem claim_invariant_failure_short_circuit_witness :
    detectIsomorphism pathThree triangleA 10 =
      { isIsomorphic := some false, reason := some "Invariants do not match",
        invariantCheck := checkInvariants pathThree triangleA, mapping := none,
        permutationsChecked := none, optimized := none } ∧
    detectIsomorphismOptimized pathThree triangleA 12 =
      { isIsomorphic := some false, reason := some "Invariants do not match",
        invariantCheck := checkInvariants pathThree triangleA, mapping := none,
        permutationsChecked := none, optimized := none } ∧
    (detectIsomorphism pathThree triangleA 10).permutationsChecked.getD 0 = 0 ∧
    (detectIsomorphismOptimized pathThree triangleA 12).permutationsChecked.getD 0 = 0 :=
  claim_invariant_failure_short_circuit pathThree triangleA 10 12 (by decide)

/-- Directed multigraph with a doubled edge 1 to 2 and a single edge 2 to 3. -/
def multiA : Graph :=
  (((Graph.empty true).addEdge 1 2).addEdge 1 2).addEdge 2 3

/-- Directed multigraph with a single edge 1 to 2 and a doubled edge 2 to 3. -/
def multiB : Graph :=
  (((Graph.empty true).addEdge 1 2).addEdge 2 3).addEdge 2 3

/-- Counterexample to C3 as stated: a pair of directed multigraphs inside
both ceilings on which the brute-force search answers Isomorphic (the
identity preserves boolean adjacency) while the optimized search answers
NotIsomorphic: the degree of a vertex counts duplicate neighbor entries,
so the only adjacency-preserving bijection pairs vertices of different
degrees and is never generated by the degree-partitioned search. -/
theorem claim_strategy_equivalence_counterexample :
    multiA.getVertexCount ≤ 10 ∧ multiA.getVertexCount ≤ 12 ∧
    (detectIsomorphism multiA multiB).isIsomorphic = some true ∧
    (detectIsomorphismOptimized multiA multiB).isIsomorphic = some false := by
  decide

/-- C3 amended: for every graph pair whose adjacency lists are free of
duplicate entries (no repeated edge and, for undirected graphs, no
self-loop) and whose vertex count is within both configured ceilings, the
two searches return the same isomorphic/non-isomorphic verdict. -/
theorem claim_strategy_equivalence_nodup (g1 g2 : Graph) (mv1 mv2 : Nat)
    (hwf1 : g1.WF) (hwf2 : g2.WF)
    (hna1 : g1.NodupAdjacency) (hna2 : g2.NodupAdjacency)
    (hs1 : g1.getVertexCount ≤ mv1) (hs2 : g1.getVertexCount ≤ mv2) :
    (detectIsomorphism g1 g2 mv1).isIsomorphic =
      (detectIsomorphismOptimized g1 g2 mv2).isIsomorphic := by
  by_cases hpass : (checkInvariants g1 g2).isomorphismPossible = true
  · rw [detectIsomorphism_verdict g1 g2 mv1 hpass hs1,
      detectIsomorphismOptimized_verdict g1 g2 mv2 hpass hs2]
    congr 1
    rw [decide_eq_decide]
    exact (exists_opt_iff_exists_brute g1 g2 hwf1 hwf2 hna1 hna2 hpass).symm
  · have hf := Bool.eq_false_iff.mpr hpass
    rw [detectIsomorphism_invariant_fail g1 g2 mv1 hf,
      detectIsomorphismOptimized_invariant_fail g1 g2 mv2 hf]

/-- Witness for the amended C3 on the two concrete triangles. -/
theorem claim_strategy_equivalence_nodup_witness :
    (detectIsomorphism triangleA triangleB 10).isIsomorphic =
      (detectIsomorphismOptimized triangleA triangleB 12).isIsomorphic :=
  claim_strategy_equivalence_nodup triangleA triangleB 10 12
    (by decide) (by decide) (by decide) (by decide) (by decide) (by decide)

/-- C4: when the invariant check passes and the vertex count of the first
graph exceeds the configured ceiling, both searches return the
Indeterminate record: `isIsomorphic` is null (`none`), distinct from the
NotIsomorphic value `some false`, with no permutation enumerated and no
count reported; the functions are total, so no exception is involved. -/
theorem claim_size_ceiling_indeterminate (g1 g2 : Graph) (mv1 mv2 : Nat)
    (hpass : (checkInvariants g1 g2).isomorphismPossible = true)
    (hbig1 : g1.getVertexCount > mv1) (hbig2 : g1.getVertexCount > mv2) :
    ((detectIsomorphism g1 g2 mv1).isIsomorphic = none ∧
     (detectIsomorphism g1 g2 mv1).isIsomorphic ≠ some false ∧
     (detectIsomorphism g1 g2 mv1).mapping = none ∧
     (detectIsomorphism g1 g2 mv1).permutationsChecked = none) ∧
    ((detectIsomorphismOptimized g1 g2 mv2).isIsomorphic = none ∧
     (detectIsomorphismOptimized g1 g2 mv2).isIsomorphic ≠ some false ∧
     (detectIsomorphismOptimized g1 g2 mv2).mapping = none ∧
     (detectIsomorphismOptimized g1 g2 mv2).permutationsChecked = none) := by
  rw [detectIsomorphism_too_large g1 g2 mv1 hpass hbig1,
    detectIsomorphismOptimized_too_large g1 g2 mv2 hpass hbig2]
  refine ⟨⟨rfl, by simp, rfl, rfl⟩, ⟨rfl, by simp, rfl, rfl⟩⟩

/-- Thirteen isolated vertices, above both default ceilings. -/
def thirteenVertices : Graph :=
  (List.range 13).foldl (fun g v => g.addVertex v) (Graph.empty false)

/-- Witness for C4 at the default ceilings 10 and 12. -/
theorem claim_size_ceiling_indeterminate_witness :
    ((detectIsomorphism thirteenVertices thirteenVertices 10).isIsomorphic = none ∧
     (detectIsomorphism thirteenVertices thirteenVertices 10).isIsomorphic ≠ some false ∧
     (detectIsomorphism thirteenVertices thirteenVertices 10).mapping = none ∧
     (detectIsomorphism thirteenVertices thirteenVertices 10).permutationsChecked = none) ∧
    ((detectIsomorphismOptimized thirteenVertices thirteenVertices 12).isIsomorphic = none ∧
     (detectIsomorphismOptimized thirteenVertices thirteenVertices 12).isIsomorphic ≠
       some false ∧
     (detectIsomorphismOptimized thirteenVertices thirteenVertices 12).mapping = none ∧
     (detectIsomorphismOptimized thirteenVertices
       thirteenVertices 12).permutationsChecked = none) :=
  claim_size_ceiling_indeterminate thirteenVertices thirteenVertices 10 12
    (by decide) (by decide) (by decide)

/-- C5: the brute-force search is symmetric in its two arguments as far as
the isomorphic/non-isomorphic verdict is concerned: swapping the graphs
inverts the found bijection but never changes the verdict. -/
theorem claim_detect_isomorphism_symmetric (g1 g2 : Graph) (mv : Nat)
    (hwf1 : g1.WF) (hwf2 : g2.WF) :
    (detectIsomorphism g1 g2 mv).isIsomorphic =
      (detectIsomorphism g2 g1 mv).isIsomorphic := by
  by_cases hpass : (checkInvariants g1 g2).isomorphismPossible = true
  · have hpass2 : (checkInvariants g2 g1).isomorphismPossible = true := by
      rw [invariant_pass_iff] at hpass ⊢
      exact ⟨hpass.1.symm, hpass.2.1.symm, hpass.2.2.symm⟩
    have hlen : g1.vertices.length = g2.vertices.length :=
      ((invariant_pass_iff g1 g2).mp hpass).1
    by_cases hs : g1.getVertexCount ≤ mv
    · have hs0 : g1.vertices.length ≤ mv := hs
      have hs2 : g2.getVertexCount ≤ mv := by
        show g2.vertices.length ≤ mv
        omega
      rw [detectIsomorphism_verdict g1 g2 mv hpass hs,
        detectIsomorphism_verdict g2 g1 mv hpass2 hs2]
      congr 1
      rw [decide_eq_decide]
      constructor
      · exact exists_brute_symm g1 g2 hwf1.1 hwf2.1 hlen
      · exact exists_brute_symm g2 g1 hwf2.1 hwf1.1 hlen.symm
    · have hbig : g1.getVertexCount > mv := by omega
      have hbig0 : g1.vertices.length > mv := hbig
      have hbig2 : g2.getVertexCount > mv := by
        show g2.vertices.length > mv
        omega
      rw [detectIsomorphism_too_large g1 g2 mv hpass hbig,
        detectIsomorphism_too_large g2 g1 mv hpass2 hbig2]
  · have hf := Bool.eq_false_iff.mpr hpass
    have hf2 : (checkInvariants g2 g1).isomorphismPossible = false := by
      rw [Bool.eq_false_iff]
      intro h2
      rw [invariant_pass_iff] at h2
      exact hpass ((invariant_pass_iff g1 g2).mpr
        ⟨h2.1.symm, h2.2.1.symm, h2.2.2.symm⟩)
    rw [detectIsomorphism_invariant_fail g1 g2 mv hf,
      detectIsomorphism_invariant_fail g2 g1 mv hf2]

/-- Witness for C5: triangle versus path, in both orders. -/
theorem claim_detect_isomorphism_symmetric_witness :
    (detectIsomorphism triangleA pathThree 10).isIsomorphic =
      (detectIsomorphism pathThree triangleA 10).isIsomorphic :=
  claim_detect_isomorphism_symmetric triangleA pathThree 10 (by decide) (by decide)

/-- C6: the invariant check reports `possible = true` exactly when the two
graphs have equal vertex counts, equal edge counts, and element-wise equal
degree sequences after each is sorted in descending order. -/
theorem claim_check_invariants_iff (g1 g2 : Graph) :
    (checkInvariants g1 g2).isomorphismPossible = true ↔
      g1.getVertexCount = g2.getVertexCount ∧
      g1.getEdgeCount = g2.getEdgeCount ∧
      sortDesc (g1.vertices.map fun v => g1.getDegree v) =
        sortDesc (g2.vertices.map fun v => g2.getDegree v) := by
  rw [invariant_pass_iff]
  exact Iff.rfl

/-- Undirected single edge between vertices 1 and 2. -/
def singleEdge : Graph := (Graph.empty false).addEdge 1 2

/-- Counterexample to C7 as stated: `singleEdge` has one distinct degree
value and `pathThree` has two, yet the optimized search rejects the pair
with reason "Invariants do not match" (from its first branch), not with
"Different number of degree groups": differing numbers of degree groups
force different degree sequences, so the invariant check always fires
first and the dedicated branch is unreachable. -/
theorem claim_degree_group_reason_counterexample :
    (buildDegreeGroups singleEdge).length ≠ (buildDegreeGroups pathThree).length ∧
    (detectIsomorphismOptimized singleEdge pathThree).isIsomorphic = some false ∧
    (detectIsomorphismOptimized singleEdge pathThree).reason ≠
      some "Different number of degree groups" ∧
    (detectIsomorphismOptimized singleEdge pathThree).reason =
      some "Invariants do not match" := by
  decide

/-- C7 amended: every pair whose vertex sets partition into different
numbers of distinct degree values is rejected by
`detectIsomorphismOptimized` without enumerating any candidate mapping,
but through the invariant check with reason "Invariants do not match":
equal degree sequences force equal numbers of degree groups, so the
dedicated "Different number of degree groups" branch can never be reached,
and no pair passing the degree-sequence check is rejected by the
group-count comparison. -/
theorem claim_degree_group_mismatch_short_circuit (g1 g2 : Graph) (mv : Nat)
    (h : (buildDegreeGroups g1).length ≠ (buildDegreeGroups g2).length) :
    detectIsomorphismOptimized g1 g2 mv =
      { isIsomorphic := some false, reason := some "Invariants do not match",
        invariantCheck := checkInvariants g1 g2, mapping := none,
        permutationsChecked := none, optimized := none } := by
  have hf : (checkInvariants g1 g2).isomorphismPossible = false := by
    rw [Bool.eq_false_iff]
    intro hpass
    exact h (groups_length_eq_of_pass g1 g2 hpass)
  exact detectIsomorphismOptimized_invariant_fail g1 g2 mv hf

/-- Witness for the amended C7. -/
theorem claim_degree_group_mismatch_short_circuit_witness :
    detectIsomorphismOptimized singleEdge pathThree 12 =
      { isIsomorphic := some false, reason := some "Invariants do not match",
        invariantCheck := checkInvariants singleEdge pathThree, mapping := none,
        permutationsChecked := none, optimized := none } :=
  claim_degree_group_mismatch_short_circuit singleEdge pathThree 12 (by decide)

/-- C8: neither search mutates its input graphs. In the state-passing
embedding, where every access to either graph object is an explicit
method invocation on the tracked pair, the vertices, adjacency lists,
edges and directedness flag of both inputs are identical before and after
either call, whatever the outcome. -/
theorem claim_searches_do_not_mutate_inputs (g1 g2 : Graph) (mv1 mv2 : Nat) :
    ((detectIsomorphismM mv1 (g1, g2)).2.1.vertices = g1.vertices ∧
     (detectIsomorphismM mv1 (g1, g2)).2.1.adjacencyList = g1.adjacencyList ∧
     (detectIsomorphismM mv1 (g1, g2)).2.1.edges = g1.edges ∧
     (detectIsomorphismM mv1 (g1, g2)).2.1.isDirected = g1.isDirected) ∧
    ((detectIsomorphismM mv1 (g1, g2)).2.2.vertices = g2.vertices ∧
     (detectIsomorphismM mv1 (g1, g2)).2.2.adjacencyList = g2.adjacencyList ∧
     (detectIsomorphismM mv1 (g1, g2)).2.2.edges = g2.edges ∧
     (detectIsomorphismM mv1 (g1, g2)).2.2.isDirected = g2.isDirected) ∧
    ((detectIsomorphismOptimizedM mv2 (g1, g2)).2.1.vertices = g1.vertices ∧
     (detectIsomorphismOptimizedM mv2 (g1, g2)).2.1.adjacencyList = g1.adjacencyList ∧
     (detectIsomorphismOptimizedM mv2 (g1, g2)).2.1.edges = g1.edges ∧
     (detectIsomorphismOptimizedM mv2 (g1, g2)).2.1.isDirected = g1.isDirected) ∧
    ((detectIsomorphismOptimizedM mv2 (g1, g2)).2.2.vertices = g2.vertices ∧
     (detectIsomorphismOptimizedM mv2 (g1, g2)).2.2.adjacencyList = g2.adjacencyList ∧
     (detectIsomorphismOptimizedM mv2 (g1, g2)).2.2.edges = g2.edges ∧
     (detectIsomorphismOptimizedM mv2 (g1, g2)).2.2.isDirected = g2.isDirected) := by
  have h1 := preserves_detectIsomorphismM mv1 (g1, g2)
  have h2 := preserves_detectIsomorphismOptimizedM mv2 (g1, g2)
  rw [h1, h2]
  exact ⟨⟨rfl, rfl, rfl, rfl⟩, ⟨rfl, rfl, rfl, rfl⟩,
    ⟨rfl, rfl, rfl, rfl⟩, ⟨rfl, rfl, rfl, rfl⟩⟩

/-- C9: in every undirected graph built by any sequence of `addVertex` and
`addEdge` calls, the adjacency structure is symmetric: each recorded edge
`(u, v)` puts `v` in the neighbor list of `u` and `u` in the neighbor list
of `v`, and `areAdjacent` agrees on `(u, v)` and `(v, u)` for all
vertices. -/
theorem claim_undirected_adjacency_symmetric (g : Graph) (h : BuiltFrom false g) :
    (∀ u v : Nat, (u, v) ∈ g.edges →
      v ∈ g.getNeighbors u ∧ u ∈ g.getNeighbors v) ∧
    (∀ u v : Nat, g.areAdjacent u v = g.areAdjacent v u) := by
  obtain ⟨hsym, hrec⟩ := builtFrom_undirected_sym g h
  constructor
  · intro u v he
    exact hrec (u, v) he
  · intro u v
    rw [Bool.eq_iff_iff, areAdjacent_iff, areAdjacent_iff]
    exact ⟨fun h2 => hsym u v h2, fun h2 => hsym v u h2⟩

/-- Witness for C9 on the one-edge undirected graph. -/
theorem claim_undirected_adjacency_symmetric_witness :
    (2 ∈ ((Graph.empty false).addEdge 1 2).getNeighbors 1 ∧
     1 ∈ ((Graph.empty false).addEdge 1 2).getNeighbors 2) ∧
    ((Graph.empty false).addEdge 1 2).areAdjacent 1 2 =
      ((Graph.empty false).addEdge 1 2).areAdjacent 2 1 :=
  ⟨(claim_undirected_adjacency_symmetric _
      (BuiltFrom.addEdge _ 1 2 BuiltFrom.empty)).1 1 2 (by decide),
   (claim_undirected_adjacency_symmetric _
      (BuiltFrom.addEdge _ 1 2 BuiltFrom.empty)).2 1 2⟩

/-- C10: on two well-formed graphs with zero vertices, `detectIsomorphism`
returns Isomorphic with the empty mapping and `permutationsChecked = 1`:
`permute` of the empty vertex array yields exactly the one empty
permutation, it is counted as a checked candidate, and the empty mapping
vacuously satisfies the adjacency-preservation predicate. -/
theorem claim_empty_graphs_isomorphic (g1 g2 : Graph) (mv : Nat)
    (hwf1 : g1.WF) (hwf2 : g2.WF)
    (hv1 : g1.getVertexCount = 0) (hv2 : g2.getVertexCount = 0) :
    detectIsomorphism g1 g2 mv =
      { isIsomorphic := some true, reason := none,
        invariantCheck := checkInvariants g1 g2, mapping := some [],
        permutationsChecked := some 1, optimized := none } ∧
    permute g2.vertices = [[]] ∧
    isValidMapping g1 g2 [] = true := by
  have hvl1 : g1.vertices = [] := List.length_eq_zero.mp hv1
  have hvl2 : g2.vertices = [] := List.length_eq_zero.mp hv2
  have hel1 : g1.edges = [] := by
    cases he : g1.edges with
    | nil => rfl
    | cons e t =>
      have h2 := hwf1.2.2.2 e (he ▸ List.mem_cons_self e t)
      rw [hvl1] at h2
      simp at h2
  have hel2 : g2.edges = [] := by
    cases he : g2.edges with
    | nil => rfl
    | cons e t =>
      have h2 := hwf2.2.2.2 e (he ▸ List.mem_cons_self e t)
      rw [hvl2] at h2
      simp at h2
  have hvalid : isValidMapping g1 g2 [] = true := by
    unfold isValidMapping
    rw [hvl1]
    rfl
  have hpass : (checkInvariants g1 g2).isomorphismPossible = true := by
    rw [invariant_pass_iff]
    refine ⟨?_, ?_, ?_⟩
    · show g1.vertices.length = g2.vertices.length
      rw [hvl1, hvl2]
    · show g1.edges.length = g2.edges.length
      rw [hel1, hel2]
    · show Graph.getDegreeSequence g1 = Graph.getDegreeSequence g2
      unfold Graph.getDegreeSequence
      rw [hvl1, hvl2]
      rfl
  refine ⟨?_, by rw [hvl2]; rfl, hvalid⟩
  have hloop : searchLoop g1 g2
      ((permute g2.vertices).map fun perm => g1.vertices.zip perm) 0 = some ([], 1) := by
    rw [hvl1, hvl2]
    show searchLoop g1 g2 [[]] 0 = some ([], 1)
    unfold searchLoop
    rw [if_pos hvalid]
  unfold detectIsomorphism
  simp only [hpass]
  rw [if_neg (by simp), if_neg (by omega), hloop]

/-- Witness for C10 on two freshly constructed empty graphs. -/
theorem claim_empty_graphs_isomorphic_witness :
    detectIsomorphism (Graph.empty false) (Graph.empty false) 10 =
      { isIsomorphic := some true, reason := none,
        invariantCheck := checkInvariants (Graph.empty false) (Graph.empty false),
        mapping := some [], permutationsChecked := some 1, optimized := none } ∧
    permute (Graph.empty false).vertices = [[]] ∧
    isValidMapping (Graph.empty false) (Graph.empty false) [] = true :=
  claim_empty_graphs_isomorphic (Graph.empty false) (Graph.empty false) 10
    (by decide) (by decide) rfl rfl
